import Mathlib

/-!
Shallow embedding of `src/desktop/flipper-server-core/src/utils/DeviceListener.tsx`.

Two layers are modelled:

1. `State`: the subscription registry class `State` (lines 24-97 of the source),
   backed by a Node `EventEmitter`.  Callbacks are pure observations, so a
   callback is represented by the numeric id of the `subscribe` call that
   created it; an execution of a callback is recorded in `execLog`.  The
   `executed` guard local to each `subscribe` call (source lines 78-84) is the
   `fired` set: once an id is in `fired`, its wrapped callback never invokes
   the underlying callback again.  The emitter semantics follow Node's
   `events` API: `on` keeps a listener registered, `once` removes it from the
   one event that fired, `off` removes it from the named event.

2. `Sys`: the `DeviceListener` lifecycle (lines 99-271) under the
   single-threaded cooperative model.  Each pending `start()`/`stop()` call is
   a task whose program counter `PC` marks the suspension point it is parked
   at (`await this.startListener()`, `await sleep(...)`,
   `await this.stopLogListener()`, or the one-shot wait used for coalescing).
   A step of `execCmd` runs one task from its resume point to its next
   suspension point or completion; `setSt` performs `State.set` together with
   the two constructor-registered hooks (reset of `restartCnt` on `active`,
   auto-restart on `fatal`, source lines 107-124) and the waking of coalesced
   waiters.  Because every subscription made by `DeviceListener` goes through
   the guarded `subscribe`, each constructor hook fires at most once per
   instance; this is modelled by `activeHookUsed` / `fatalHookUsed`.
   Nondeterministic scheduling (which ready task runs next, what the injected
   capabilities return) is supplied by the command list, so a theorem over all
   command lists covers every cooperative interleaving.

`sleep` (from `flipper-common`) is a pure suspension point; its invocations
are recorded in `sleepLog` together with the requested duration.
Modelled from the spec: `assertNotNull` (imported from `../comms/Utilities`,
not under `src/`) throws an assertion error when its argument is
null/undefined; in `stop()` that throw happens inside the `try` block.
-/

deriving instance DecidableEq for Except

/-- The six lifecycle states (source type `DeviceLogListenerState`, lines 17-23). -/
inductive DeviceLogListenerState
  | starting
  | stopping
  | active
  | inactive
  | fatal
  | zombie
deriving DecidableEq, Repr, Fintype

/-- Errors thrown by the injected capabilities or by `assertNotNull`. -/
inductive Err
  | assertionFailed
  | external (n : Nat)
deriving DecidableEq, Repr

/-- One emitter registration: (event state, id of the `subscribe` call, once flag). -/
abbrev Entry := DeviceLogListenerState × Nat × Bool

/-- The `State` class (source lines 24-97): current state, last error, and the
`EventEmitter` listener table, plus the bookkeeping that makes callback
executions observable (`fired` = the per-registration `executed` guards that
have tripped, `execLog` = the sequence of underlying-callback executions). -/
structure State where
  _currentState : DeviceLogListenerState
  _error : Option Err
  entries : List Entry
  fired : List Nat
  execLog : List (Nat × DeviceLogListenerState)
  nextId : Nat
deriving DecidableEq, Repr

/-- A freshly constructed `State`: `_currentState` starts as `inactive`. -/
def State.init : State := ⟨.inactive, none, [], [], [], 0⟩

/-- One `EventEmitter.emit` pass over the listeners registered for the emitted
state, in registration order.  Each listener is the guarded `wrappedCb` of
source lines 79-84: the underlying callback runs only if that registration's
`executed` flag has not tripped yet. -/
def emitRun (st : DeviceLogListenerState) :
    List Entry → List Nat → List (Nat × DeviceLogListenerState) →
    List Nat × List (Nat × DeviceLogListenerState)
  | [], fired, log => (fired, log)
  | en :: rest, fired, log =>
    if en.2.1 ∈ fired then emitRun st rest fired log
    else emitRun st rest (fired ++ [en.2.1]) (log ++ [(en.2.1, st)])

/-- `State.set` (source lines 37-43): overwrite `_currentState` and `_error`,
then `emit`.  Node's `emitter.once` removes a listener from the event that
fired (and only from that event) when it fires, whether or not the guarded
callback does anything. -/
def State.set (s : State) (newState : DeviceLogListenerState) (err : Option Err) : State :=
  let toFire := s.entries.filter (fun en => en.1 == newState)
  let remaining := s.entries.filter (fun en => !(en.1 == newState && en.2.2))
  let res := emitRun newState toFire s.fired s.execLog
  { s with _currentState := newState, _error := err,
           entries := remaining, fired := res.1, execLog := res.2 }

/-- `State.subscribe` (source lines 66-96).  If the current state is already
in the target set, the callback runs immediately and no registration is kept
(the returned disposer is a no-op).  Otherwise one guarded registration is
added per listed state.  Returns the updated `State` and the registration id. -/
def State.subscribe (s : State) (states : List DeviceLogListenerState) (once : Bool) :
    State × Nat :=
  if s._currentState ∈ states then
    ({ s with execLog := s.execLog ++ [(s.nextId, s._currentState)],
              nextId := s.nextId + 1 }, s.nextId)
  else
    ({ s with entries := s.entries ++ states.map (fun st => (st, s.nextId, once)),
              nextId := s.nextId + 1 }, s.nextId)

/-- `State.once` (source lines 45-50). -/
def State.once (s : State) (states : List DeviceLogListenerState) : State × Nat :=
  s.subscribe states true

/-- `State.on` (source lines 52-57). -/
def State.on (s : State) (states : List DeviceLogListenerState) : State × Nat :=
  s.subscribe states false

/-- `State.is` (source lines 59-64). -/
def State.is (s : State) (states : List DeviceLogListenerState) : Bool :=
  s._currentState ∈ states

/-- The disposer returned by `subscribe` (source lines 91-95): `off` the
wrapped callback from every state it was registered on, i.e. drop every entry
carrying this registration id. -/
def State.dispose (s : State) (id : Nat) : State :=
  { s with entries := s.entries.filter (fun en => !(en.2.1 == id)) }

/-- External operations driving a `State` instance. -/
inductive EmOp
  | sub (states : List DeviceLogListenerState) (once : Bool)
  | setOp (st : DeviceLogListenerState) (err : Option Err)
  | disposeOp (id : Nat)
deriving DecidableEq, Repr

/-- Apply one operation to a `State`. -/
def State.applyOp (s : State) : EmOp → State
  | .sub states o => (s.subscribe states o).1
  | .setOp st err => s.set st err
  | .disposeOp id => s.dispose id

/-- Run a list of operations from a given `State`. -/
def State.runFrom (s : State) (ops : List EmOp) : State :=
  ops.foldl State.applyOp s

/-- Run a list of operations from a fresh `State`. -/
def State.runOps (ops : List EmOp) : State :=
  State.runFrom State.init ops

/-- How many times the callback of registration `id` has executed. -/
def logCount (s : State) (id : Nat) : Nat :=
  s.execLog.countP (fun p => p.1 == id)

/-- The registration ids present in the listener table. -/
def entryIds (s : State) : List Nat :=
  s.entries.map (fun en => en.2.1)

/-- `RESTART_CNT` (source line 14). -/
def RESTART_CNT : Int := 3

/-- `RESTART_SLEEP` (source line 15), in milliseconds. -/
def RESTART_SLEEP : Nat := 100

/-- Program counter of one pending `start()`/`stop()` call: the suspension
point it is parked at, or its completion status.  `parked ws b` is a call
waiting on a one-shot subscription for the states `ws`, after which it
re-invokes `start()` (`b = true`) or `stop()` (`b = false`), per source lines
135-144, 150-159, 210-219, 225-234.  `taskDone` is a call whose promise
resolved; `taskFailed e` is a call whose promise rejected with `e`. -/
inductive PC
  | sEntry
  | sAttachAwait
  | sSleep
  | tEntry
  | tTeardownAwait
  | parked (ws : List DeviceLogListenerState) (isStart : Bool)
  | taskDone
  | taskFailed (e : Err)
deriving DecidableEq, Repr

/-- The `DeviceListener` instance together with its pending calls and the
observation counters.  `currentState`/`lastError` are the owned `State`'s
fields; `stopLogListener` holds the teardown token by its numeric identity;
`restartCnt` as in the source; `tasks` are the pending calls.
`attachCalls` counts invocations of `startListener`; `sleepLog` records each
`sleep` with its duration; `autoRestarts` counts the fire-and-forget `start()`
calls issued by the constructor's `fatal` hook; `fatalEntries` counts entries
into `fatal`; `activeHookUsed`/`fatalHookUsed` are the tripped `executed`
guards of the two constructor subscriptions (source lines 107-124). -/
structure Sys where
  currentState : DeviceLogListenerState
  lastError : Option Err
  restartCnt : Int
  stopLogListener : Option Nat
  tasks : List PC
  attachCalls : Nat
  sleepLog : List Nat
  autoRestarts : Nat
  fatalEntries : Nat
  teardownCalls : Nat
  activeHookUsed : Bool
  fatalHookUsed : Bool
deriving DecidableEq, Repr

/-- Waking of a coalesced waiter by `State.set`: a one-shot subscription on
`ws` fires when the new state is in `ws`, making the waiter's re-invocation
ready to run. -/
def wakePC (st : DeviceLogListenerState) : PC → PC
  | .parked ws b => if st ∈ ws then (if b then .sEntry else .tEntry) else .parked ws b
  | pc => pc

/-- The constructor's guarded `on('active', ...)` hook (source lines 109-111):
on its first firing it resets `restartCnt` to `RESTART_CNT`; afterwards the
`executed` guard blocks the callback. -/
def hookActive (s : Sys) : Sys :=
  if s.activeHookUsed then s
  else { s with restartCnt := RESTART_CNT, activeHookUsed := true }

/-- The constructor's guarded `on('fatal', ...)` hook (source lines 112-123):
on its first firing, if `restartCnt` is positive, it issues one
fire-and-forget `start()` (a new ready task); afterwards the `executed`
guard blocks the callback.  `fatalEntries` counts every entry into `fatal`. -/
def hookFatal (s : Sys) : Sys :=
  if s.fatalHookUsed then { s with fatalEntries := s.fatalEntries + 1 }
  else if 0 < s.restartCnt then
    { s with fatalEntries := s.fatalEntries + 1, fatalHookUsed := true,
             tasks := s.tasks ++ [.sEntry], autoRestarts := s.autoRestarts + 1 }
  else { s with fatalEntries := s.fatalEntries + 1, fatalHookUsed := true }

/-- The unconditional part of `State.set`: overwrite state and error, wake
every parked waiter whose one-shot subscription covers the new state. -/
def setStBase (s : Sys) (st : DeviceLogListenerState) (err : Option Err) : Sys :=
  { s with currentState := st, lastError := err, tasks := s.tasks.map (wakePC st) }

/-- `this._state.set(st, err)` as seen by the lifecycle: update state and
error, synchronously notify.  Notification wakes every parked waiter whose
set contains `st` and runs the two constructor hooks when their state is
entered. -/
def setSt (s : Sys) (st : DeviceLogListenerState) (err : Option Err) : Sys :=
  if st = .fatal then hookFatal (setStBase s st err)
  else if st = .active then hookActive (setStBase s st err)
  else setStBase s st err

/-- Store a task's new program counter. -/
def setTask (s : Sys) (i : Nat) (pc : PC) : Sys :=
  { s with tasks := s.tasks.set i pc }

/-- Inputs consumed by one atomic segment: what the injected collaborators
return at the suspension points the segment reaches.  `conn` is the outcome
of `isDeviceConnected()` (which may throw), `attach` the outcome of
`startListener()` (a teardown-token id on success), `teardown` the outcome of
invoking the stored teardown token. -/
structure ExecIn where
  conn : Except Err Bool
  attach : Except Err Nat
  teardown : Except Err Unit
deriving DecidableEq, Repr

/-- Exit of the attach loop: `this._state.set('active')`, resolve (source
line 195). -/
def finishActive (s : Sys) (i : Nat) : Sys :=
  setTask (setSt s .active none) i .taskDone

/-- Top of the `while (!this.stopLogListener)` loop (source lines 168-173):
re-check the loop condition, query `isDeviceConnected()` (outside any `try`,
so a throw rejects `start()`), and either bail out to `inactive` or invoke
`startListener()` and suspend on it. -/
def attachLoopTop (s : Sys) (i : Nat) (inp : ExecIn) : Sys :=
  match s.stopLogListener with
  | some _ => finishActive s i
  | none =>
    match inp.conn with
    | .error e => setTask s i (.taskFailed e)
    | .ok false => setTask (setSt s .inactive none) i .taskDone
    | .ok true => setTask { s with attachCalls := s.attachCalls + 1 } i .sAttachAwait

/-- `start()` dispatch (source lines 126-166): no-op when `active`, coalesce
when `starting`/`stopping`, otherwise clear the stored token, set `starting`
and enter the attach loop. -/
def startDispatch (s : Sys) (i : Nat) (inp : ExecIn) : Sys :=
  if s.currentState = .active then setTask s i .taskDone
  else if s.currentState = .starting then setTask s i (.parked [.active, .fatal] true)
  else if s.currentState = .stopping then setTask s i (.parked [.inactive, .zombie] true)
  else attachLoopTop (setSt { s with stopLogListener := none } .starting none) i inp

/-- Resumption of `await this.startListener()` (source lines 174-193): on
success store the token, break, set `active`; on failure either enter `fatal`
(retries exhausted, `start()` still resolves) or decrement `restartCnt` and
sleep. -/
def attachResume (s : Sys) (i : Nat) (inp : ExecIn) : Sys :=
  match inp.attach with
  | .ok tok => finishActive { s with stopLogListener := some tok } i
  | .error e =>
    if s.restartCnt ≤ 0 then setTask (setSt s .fatal (some e)) i .taskDone
    else
      setTask { s with restartCnt := s.restartCnt - 1,
                       sleepLog := s.sleepLog ++ [RESTART_SLEEP] } i .sSleep

/-- Bookkeeping: one invocation of the stored teardown token begins. -/
def bumpTeardown (s : Sys) : Sys := { s with teardownCalls := s.teardownCalls + 1 }

/-- `stop()` dispatch (source lines 201-244): no-op from
`inactive`/`fatal`/`zombie`, coalesce when `stopping`/`starting`, otherwise
set `stopping` and run the detach sequence.  `assertNotNull(this.stopLogListener)`
sits inside the `try`, so a missing token is caught by the same `catch` as a
teardown failure and lands in `zombie`. -/
def stopDispatch (s : Sys) (i : Nat) (_inp : ExecIn) : Sys :=
  if s.currentState = .inactive ∨ s.currentState = .fatal ∨ s.currentState = .zombie then
    setTask s i .taskDone
  else if s.currentState = .stopping then setTask s i (.parked [.inactive, .zombie] false)
  else if s.currentState = .starting then setTask s i (.parked [.active, .fatal] false)
  else
    match (setSt s .stopping none).stopLogListener with
    | none =>
      setTask (setSt (setSt s .stopping none) .zombie (some .assertionFailed)) i .taskDone
    | some _ => setTask (bumpTeardown (setSt s .stopping none)) i .tTeardownAwait

/-- Resumption of `await this.stopLogListener()` (source lines 244-250):
success ends in `inactive`, failure ends in `zombie` with the error captured;
`stop()` resolves either way. -/
def teardownResume (s : Sys) (i : Nat) (inp : ExecIn) : Sys :=
  match inp.teardown with
  | .ok _ => setTask (setSt s .inactive none) i .taskDone
  | .error e => setTask (setSt s .zombie (some e)) i .taskDone

/-- Run the ready task `i` from its suspension point to the next one.  Tasks
that are parked, finished, or out of range do not run. -/
def execTask (s : Sys) (i : Nat) (inp : ExecIn) : Sys :=
  match s.tasks[i]? with
  | none => s
  | some .sEntry => startDispatch s i inp
  | some .sAttachAwait => attachResume s i inp
  | some .sSleep => attachLoopTop s i inp
  | some .tEntry => stopDispatch s i inp
  | some .tTeardownAwait => teardownResume s i inp
  | some _ => s

/-- One scheduler command: an external caller issues `start()` or `stop()`
(a new ready task), or one ready task runs one atomic segment with the given
collaborator outcomes. -/
inductive Cmd
  | spawnStart
  | spawnStop
  | exec (i : Nat) (inp : ExecIn)
deriving DecidableEq, Repr

/-- Apply one scheduler command. -/
def execCmd (s : Sys) : Cmd → Sys
  | .spawnStart => { s with tasks := s.tasks ++ [.sEntry] }
  | .spawnStop => { s with tasks := s.tasks ++ [.tEntry] }
  | .exec i inp => execTask s i inp

/-- A freshly constructed listener: `inactive`, `RESTART_CNT` retries, no
token, no pending calls. -/
def initSys : Sys := ⟨.inactive, none, RESTART_CNT, none, [], 0, [], 0, 0, 0, false, false⟩

/-- Run a command list from the fresh instance. -/
def run (cmds : List Cmd) : Sys :=
  cmds.foldl execCmd initSys

example : (run [.spawnStart, .exec 0 ⟨.ok true, .ok 0, .ok ()⟩,
    .exec 0 ⟨.ok true, .ok 7, .ok ()⟩]).currentState = .active := by decide

example : (run [.spawnStart, .exec 0 ⟨.ok true, .ok 0, .ok ()⟩,
    .exec 0 ⟨.ok true, .ok 7, .ok ()⟩]).stopLogListener = some 7 := by decide

/-- True of the program counters suspended inside the attach sequence: an
attach attempt is in flight (awaiting `startListener()` or the retry
backoff). -/
def PC.inAttach : PC → Bool
  | .sAttachAwait => true
  | .sSleep => true
  | _ => false

/-- True of the program counters suspended inside the detach sequence: a
teardown invocation is in flight. -/
def PC.inDetach : PC → Bool
  | .tTeardownAwait => true
  | _ => false

/-- Number of attach operations currently in flight. -/
def attachInFlight (s : Sys) : Nat := s.tasks.countP PC.inAttach

/-- Number of detach operations currently in flight. -/
def detachInFlight (s : Sys) : Nat := s.tasks.countP PC.inDetach

/-- The lifecycle invariant: at most one attach and at most one detach is in
flight, attach attempts only while `starting`, detach attempts only while
`stopping`, and in `active` the teardown token is present. -/
def SysInv (s : Sys) : Prop :=
  (s.currentState = .starting → detachInFlight s = 0 ∧ attachInFlight s ≤ 1)
  ∧ (s.currentState = .stopping → attachInFlight s = 0 ∧ detachInFlight s ≤ 1)
  ∧ (s.currentState ≠ .starting → s.currentState ≠ .stopping →
      attachInFlight s = 0 ∧ detachInFlight s = 0)
  ∧ (s.currentState = .active → s.stopLogListener ≠ none)

/-- Does the command avoid a throwing connectivity predicate? -/
def cmdConnOk : Cmd → Bool
  | .exec _ inp =>
    match inp.conn with
    | .ok _ => true
    | .error _ => false
  | _ => true

def inpConn : ExecIn := ⟨.ok true, .ok 0, .ok ()⟩
def inpFail (j : Nat) : ExecIn := ⟨.ok true, .error (.external j), .ok ()⟩
def inpOk (tok : Nat) : ExecIn := ⟨.ok true, .ok tok, .ok ()⟩
def inpTdOk : ExecIn := ⟨.ok true, .ok 0, .ok ()⟩
def inpTdFail (j : Nat) : ExecIn := ⟨.ok true, .ok 0, .error (.external j)⟩

def c2Cmds (k : Nat) : List Cmd :=
  [.spawnStart, .exec 0 inpConn]
    ++ (List.range k).flatMap (fun j => [.exec 0 (inpFail j), .exec 0 inpConn])
    ++ [.exec 0 (inpOk 1)]

def c3Cmds : List Cmd :=
  [.spawnStart, .exec 0 inpConn, .exec 0 (inpFail 1), .exec 0 inpConn,
   .exec 0 (inpFail 2), .exec 0 inpConn, .exec 0 (inpFail 3), .exec 0 inpConn,
   .exec 0 (inpFail 4)]

def c7Cmds : List Cmd :=
  [.spawnStart, .exec 0 inpConn, .exec 0 (inpOk 7), .spawnStop,
   .exec 1 inpTdOk, .exec 1 inpTdOk]

def c4Cmds : List Cmd :=
  [.spawnStart, .exec 0 inpConn, .exec 0 (inpOk 7), .spawnStop,
   .exec 1 inpTdOk, .exec 1 (inpTdFail 9)]

/-- Concrete instances used to instantiate the claim theorems. -/
def c1StartingSys : Sys := ⟨.starting, none, 3, none, [.sEntry], 0, [], 0, 0, 0, false, false⟩

def c1ParkedSys : Sys :=
  ⟨.inactive, none, 3, none, [.parked [.active, .fatal] true], 0, [], 0, 0, 0, false, false⟩

def c3ExhaustedSys : Sys :=
  ⟨.starting, none, 0, none, [.sAttachAwait], 4, [100, 100, 100], 0, 0, 0, false, false⟩

def c4ActiveSys : Sys := ⟨.active, none, 3, some 5, [.tEntry], 1, [], 0, 0, 0, true, false⟩

def c5NoTokenSys : Sys := ⟨.active, none, 3, none, [.tEntry], 1, [], 0, 0, 0, true, false⟩

def c6InactiveSys : Sys := ⟨.inactive, none, 3, none, [.sEntry], 0, [], 0, 0, 0, false, false⟩

def c6ThrowCmds : List Cmd := [.spawnStart, .exec 0 ⟨.error (.external 7), .ok 0, .ok ()⟩]

def c7AttachCmds : List Cmd := [.spawnStart, .exec 0 inpConn, .exec 0 (inpOk 7)]

def c7TdSys : Sys := ⟨.stopping, none, 3, some 7, [.tTeardownAwait], 1, [], 0, 0, 1, true, false⟩

def c7EntrySys : Sys := ⟨.inactive, none, 3, some 7, [.sEntry], 1, [], 0, 0, 1, true, false⟩

/-! ### List bookkeeping lemmas -/

theorem countP_set_eq (l : List PC) (i : Nat) (a b : PC) (p : PC → Bool)
    (h : l[i]? = some a) :
    (l.set i b).countP p + (if p a then 1 else 0)
      = l.countP p + (if p b then 1 else 0) := by
  induction l generalizing i with
  | nil => simp at h
  | cons x t ih =>
    cases i with
    | zero =>
      simp only [List.getElem?_cons_zero, Option.some.injEq] at h
      subst h
      simp only [List.set_cons_zero, List.countP_cons]
      omega
    | succ j =>
      simp only [List.getElem?_cons_succ] at h
      simp only [List.set_cons_succ, List.countP_cons]
      have := ih j h
      omega

theorem countP_pos_of_getElem (l : List PC) (i : Nat) (a : PC) (p : PC → Bool)
    (h : l[i]? = some a) (ha : p a = true) : 1 ≤ l.countP p := by
  obtain ⟨hlt, hget⟩ := List.getElem?_eq_some.mp h
  have : a ∈ l := hget ▸ List.getElem_mem hlt
  exact List.countP_pos_iff.mpr ⟨a, this, ha⟩

/-! ### Effects of waking and the hooks on the in-flight counters -/

theorem inAttach_wakePC (st : DeviceLogListenerState) (pc : PC) :
    PC.inAttach (wakePC st pc) = PC.inAttach pc := by
  cases pc <;> first | rfl | (simp only [wakePC]; split_ifs <;> rfl)

theorem inDetach_wakePC (st : DeviceLogListenerState) (pc : PC) :
    PC.inDetach (wakePC st pc) = PC.inDetach pc := by
  cases pc <;> first | rfl | (simp only [wakePC]; split_ifs <;> rfl)

theorem countP_map_wake (l : List PC) (st : DeviceLogListenerState) (p : PC → Bool)
    (hp : ∀ pc, p (wakePC st pc) = p pc) :
    (l.map (wakePC st)).countP p = l.countP p := by
  induction l with
  | nil => rfl
  | cons a t ih => simp [List.countP_cons, hp, ih]

theorem hookActive_tasks (s : Sys) : (hookActive s).tasks = s.tasks := by
  unfold hookActive; split_ifs <;> rfl

theorem hookActive_currentState (s : Sys) : (hookActive s).currentState = s.currentState := by
  unfold hookActive; split_ifs <;> rfl

theorem hookActive_lastError (s : Sys) : (hookActive s).lastError = s.lastError := by
  unfold hookActive; split_ifs <;> rfl

theorem hookActive_stopLogListener (s : Sys) :
    (hookActive s).stopLogListener = s.stopLogListener := by
  unfold hookActive; split_ifs <;> rfl

theorem hookFatal_currentState (s : Sys) : (hookFatal s).currentState = s.currentState := by
  unfold hookFatal; split_ifs <;> rfl

theorem hookFatal_lastError (s : Sys) : (hookFatal s).lastError = s.lastError := by
  unfold hookFatal; split_ifs <;> rfl

theorem hookFatal_stopLogListener (s : Sys) :
    (hookFatal s).stopLogListener = s.stopLogListener := by
  unfold hookFatal; split_ifs <;> rfl

theorem hookFatal_countP (s : Sys) (p : PC → Bool) (hpe : p .sEntry = false) :
    (hookFatal s).tasks.countP p = s.tasks.countP p := by
  unfold hookFatal
  split_ifs <;> simp [List.countP_append, List.countP_cons, hpe]

theorem hookFatal_tasks_getElem (s : Sys) (i : Nat) (pc : PC)
    (h : s.tasks[i]? = some pc) : (hookFatal s).tasks[i]? = some pc := by
  obtain ⟨hlt, _⟩ := List.getElem?_eq_some.mp h
  unfold hookFatal
  split_ifs <;> simp_all [List.getElem?_append, hlt]

theorem hookFatal_tasks_length (s : Sys) :
    s.tasks.length ≤ (hookFatal s).tasks.length := by
  unfold hookFatal; split_ifs <;> simp

/-! ### Effects of `setSt` -/

theorem setStBase_currentState (s : Sys) (st : DeviceLogListenerState) (err : Option Err) :
    (setStBase s st err).currentState = st := rfl

theorem setStBase_lastError (s : Sys) (st : DeviceLogListenerState) (err : Option Err) :
    (setStBase s st err).lastError = err := rfl

theorem setStBase_stopLogListener (s : Sys) (st : DeviceLogListenerState) (err : Option Err) :
    (setStBase s st err).stopLogListener = s.stopLogListener := rfl

theorem setStBase_tasks (s : Sys) (st : DeviceLogListenerState) (err : Option Err) :
    (setStBase s st err).tasks = s.tasks.map (wakePC st) := rfl

theorem setSt_currentState (s : Sys) (st : DeviceLogListenerState) (err : Option Err) :
    (setSt s st err).currentState = st := by
  unfold setSt
  split_ifs <;>
    simp [hookFatal_currentState, hookActive_currentState, setStBase_currentState]

theorem setSt_lastError (s : Sys) (st : DeviceLogListenerState) (err : Option Err) :
    (setSt s st err).lastError = err := by
  unfold setSt
  split_ifs <;> simp [hookFatal_lastError, hookActive_lastError, setStBase_lastError]

theorem setSt_stopLogListener (s : Sys) (st : DeviceLogListenerState) (err : Option Err) :
    (setSt s st err).stopLogListener = s.stopLogListener := by
  unfold setSt
  split_ifs <;>
    simp [hookFatal_stopLogListener, hookActive_stopLogListener, setStBase_stopLogListener]

theorem setSt_countP (s : Sys) (st : DeviceLogListenerState) (err : Option Err)
    (p : PC → Bool) (hp : ∀ pc, p (wakePC st pc) = p pc) (hpe : p .sEntry = false) :
    (setSt s st err).tasks.countP p = s.tasks.countP p := by
  unfold setSt
  split_ifs <;>
    simp [hookFatal_countP _ _ hpe, hookActive_tasks, setStBase_tasks,
      countP_map_wake _ _ _ hp]

theorem attachInFlight_setSt (s : Sys) (st : DeviceLogListenerState) (err : Option Err) :
    attachInFlight (setSt s st err) = attachInFlight s :=
  setSt_countP s st err PC.inAttach (inAttach_wakePC st) rfl

theorem detachInFlight_setSt (s : Sys) (st : DeviceLogListenerState) (err : Option Err) :
    detachInFlight (setSt s st err) = detachInFlight s :=
  setSt_countP s st err PC.inDetach (inDetach_wakePC st) rfl

theorem setSt_tasks_getElem (s : Sys) (st : DeviceLogListenerState) (err : Option Err)
    (i : Nat) (pc : PC) (h : s.tasks[i]? = some pc) :
    (setSt s st err).tasks[i]? = some (wakePC st pc) := by
  have hmap : (s.tasks.map (wakePC st))[i]? = some (wakePC st pc) := by
    rw [List.getElem?_map, h]; rfl
  unfold setSt
  split_ifs with h1 h2
  · exact hookFatal_tasks_getElem _ _ _ (by rw [setStBase_tasks]; exact hmap)
  · rw [hookActive_tasks, setStBase_tasks]; exact hmap
  · rw [setStBase_tasks]; exact hmap

theorem setSt_tasks_length (s : Sys) (st : DeviceLogListenerState) (err : Option Err) :
    s.tasks.length ≤ (setSt s st err).tasks.length := by
  unfold setSt
  split_ifs with h1 h2
  · exact le_trans (le_of_eq (by rw [setStBase_tasks, List.length_map]))
      (hookFatal_tasks_length _)
  · rw [hookActive_tasks, setStBase_tasks, List.length_map]
  · rw [setStBase_tasks, List.length_map]

/-! ### Effects of `setTask` -/

theorem setTask_currentState (s : Sys) (i : Nat) (pc : PC) :
    (setTask s i pc).currentState = s.currentState := rfl

theorem setTask_lastError (s : Sys) (i : Nat) (pc : PC) :
    (setTask s i pc).lastError = s.lastError := rfl

theorem setTask_stopLogListener (s : Sys) (i : Nat) (pc : PC) :
    (setTask s i pc).stopLogListener = s.stopLogListener := rfl

theorem setTask_getElem (s : Sys) (i : Nat) (pc : PC) (h : i < s.tasks.length) :
    (setTask s i pc).tasks[i]? = some pc := by
  simp [setTask, List.getElem?_set_self h]

theorem attachInFlight_setTask (s : Sys) (i : Nat) (a pc : PC)
    (h : s.tasks[i]? = some a) :
    attachInFlight (setTask s i pc) + (if PC.inAttach a then 1 else 0)
      = attachInFlight s + (if PC.inAttach pc then 1 else 0) :=
  countP_set_eq s.tasks i a pc PC.inAttach h

theorem detachInFlight_setTask (s : Sys) (i : Nat) (a pc : PC)
    (h : s.tasks[i]? = some a) :
    detachInFlight (setTask s i pc) + (if PC.inDetach a then 1 else 0)
      = detachInFlight s + (if PC.inDetach pc then 1 else 0) :=
  countP_set_eq s.tasks i a pc PC.inDetach h

/-! ### Invariant preservation -/

theorem getElem_lt_length (l : List PC) (i : Nat) (a : PC) (h : l[i]? = some a) :
    i < l.length :=
  (List.getElem?_eq_some.mp h).1

theorem sysInv_build (s : Sys) (st : DeviceLogListenerState) (hc : s.currentState = st)
    (hst : st ≠ .starting) (hsp : st ≠ .stopping)
    (ha : attachInFlight s = 0) (hd : detachInFlight s = 0)
    (hl : st = .active → s.stopLogListener ≠ none) : SysInv s :=
  ⟨fun hcs => absurd (hc.symm.trans hcs) hst,
   fun hcs => absurd (hc.symm.trans hcs) hsp,
   fun _ _ => ⟨ha, hd⟩,
   fun hcs => hl (hc.symm.trans hcs)⟩

theorem sysInv_buildStarting (s : Sys) (hc : s.currentState = .starting)
    (ha : attachInFlight s ≤ 1) (hd : detachInFlight s = 0) : SysInv s := by
  refine ⟨fun _ => ⟨hd, ha⟩, ?_, ?_, ?_⟩ <;> intro hcs <;> rw [hc] at hcs <;> simp_all

theorem sysInv_buildStopping (s : Sys) (hc : s.currentState = .stopping)
    (ha : attachInFlight s = 0) (hd : detachInFlight s ≤ 1) : SysInv s := by
  refine ⟨?_, fun _ => ⟨ha, hd⟩, ?_, ?_⟩ <;> intro hcs <;> rw [hc] at hcs <;> simp_all

theorem sysInv_congr (s s' : Sys) (hc : s'.currentState = s.currentState)
    (ha : attachInFlight s' = attachInFlight s)
    (hd : detachInFlight s' = detachInFlight s)
    (hl : s'.stopLogListener = s.stopLogListener) (h : SysInv s) : SysInv s' := by
  unfold SysInv at h ⊢
  rw [hc, ha, hd, hl]
  exact h

theorem state_starting_of_attach (s : Sys) (h : SysInv s)
    (hA : 1 ≤ attachInFlight s) : s.currentState = .starting := by
  obtain ⟨h1, h2, h3, h4⟩ := h
  by_contra hne
  rcases Decidable.em (s.currentState = .stopping) with hs | hs
  · have := (h2 hs).1; omega
  · have := (h3 hne hs).1; omega

theorem state_stopping_of_detach (s : Sys) (h : SysInv s)
    (hD : 1 ≤ detachInFlight s) : s.currentState = .stopping := by
  obtain ⟨h1, h2, h3, h4⟩ := h
  by_contra hne
  rcases Decidable.em (s.currentState = .starting) with hs | hs
  · have := (h1 hs).1; omega
  · have := (h3 hs hne).2; omega

theorem sysInv_spawn (s : Sys) (pc : PC) (hA : PC.inAttach pc = false)
    (hD : PC.inDetach pc = false) (h : SysInv s) :
    SysInv { s with tasks := s.tasks ++ [pc] } := by
  refine sysInv_congr s _ rfl ?_ ?_ rfl h
  · simp [attachInFlight, List.countP_append, List.countP_cons, hA]
  · simp [detachInFlight, List.countP_append, List.countP_cons, hD]

theorem attach_pos_of_getElem (s : Sys) (i : Nat) (a : PC) (h : s.tasks[i]? = some a)
    (ha : PC.inAttach a = true) : 1 ≤ attachInFlight s :=
  countP_pos_of_getElem _ _ _ _ h ha

theorem detach_pos_of_getElem (s : Sys) (i : Nat) (a : PC) (h : s.tasks[i]? = some a)
    (ha : PC.inDetach a = true) : 1 ≤ detachInFlight s :=
  countP_pos_of_getElem _ _ _ _ h ha

theorem sysInv_finishActive (s : Sys) (i : Nat) (a : PC)
    (ht : s.tasks[i]? = some a)
    (hAw : attachInFlight s ≤ if PC.inAttach a then 1 else 0)
    (hD : detachInFlight s = 0) (hDa : PC.inDetach a = false)
    (htok : s.stopLogListener ≠ none) :
    SysInv (finishActive s i) := by
  have hsbt : (setSt s .active none).tasks[i]? = some (wakePC .active a) :=
    setSt_tasks_getElem s .active none i a ht
  have e1 := attachInFlight_setTask (setSt s .active none) i _ .taskDone hsbt
  have e2 := detachInFlight_setTask (setSt s .active none) i _ .taskDone hsbt
  rw [inAttach_wakePC] at e1
  rw [inDetach_wakePC, hDa] at e2
  rw [attachInFlight_setSt] at e1
  rw [detachInFlight_setSt, hD] at e2
  refine sysInv_build _ .active
    (by rw [finishActive, setTask_currentState, setSt_currentState])
    (by decide) (by decide) ?_ ?_ ?_
  · show attachInFlight (setTask (setSt s .active none) i .taskDone) = 0
    cases hia : PC.inAttach a <;> rw [hia] at e1 hAw <;>
      simp [PC.inAttach] at e1 hAw <;> omega
  · show detachInFlight (setTask (setSt s .active none) i .taskDone) = 0
    simp [PC.inDetach] at e2
    omega
  · intro _
    show (setTask (setSt s .active none) i .taskDone).stopLogListener ≠ none
    rw [setTask_stopLogListener, setSt_stopLogListener]
    exact htok

theorem sysInv_attachLoopTop (s : Sys) (i : Nat) (inp : ExecIn) (a : PC)
    (h : SysInv s) (hc : s.currentState = .starting) (ht : s.tasks[i]? = some a)
    (hAw : attachInFlight s ≤ if PC.inAttach a then 1 else 0) :
    SysInv (attachLoopTop s i inp) := by
  have hD : detachInFlight s = 0 := (h.1 hc).1
  have hDa : PC.inDetach a = false := by
    cases hda : PC.inDetach a
    · rfl
    · have hle := detach_pos_of_getElem s i a ht hda
      omega
  unfold attachLoopTop
  split
  · -- the loop condition found a stored token: set `active` and resolve
    next x heq => exact sysInv_finishActive s i a ht hAw hD hDa (by rw [heq]; simp)
  · next heq =>
    split
    · -- the connectivity predicate threw: the call rejects, state left `starting`
      next e hconn =>
      have e1 := attachInFlight_setTask s i a (.taskFailed e) ht
      have e2 := detachInFlight_setTask s i a (.taskFailed e) ht
      rw [hDa] at e2
      refine sysInv_buildStarting _ (by rw [setTask_currentState]; exact hc) ?_ ?_
      · show attachInFlight (setTask s i (.taskFailed e)) ≤ 1
        cases hia : PC.inAttach a <;> rw [hia] at e1 hAw <;>
          simp [PC.inAttach] at e1 hAw <;> omega
      · show detachInFlight (setTask s i (.taskFailed e)) = 0
        simp [PC.inDetach] at e2
        omega
    · -- device not connected: back to `inactive`, resolve
      next hconn =>
      have hsbt : (setSt s .inactive none).tasks[i]? = some (wakePC .inactive a) :=
        setSt_tasks_getElem s .inactive none i a ht
      have e1 := attachInFlight_setTask (setSt s .inactive none) i _ .taskDone hsbt
      have e2 := detachInFlight_setTask (setSt s .inactive none) i _ .taskDone hsbt
      rw [inAttach_wakePC] at e1
      rw [inDetach_wakePC, hDa] at e2
      rw [attachInFlight_setSt] at e1
      rw [detachInFlight_setSt, hD] at e2
      refine sysInv_build _ .inactive
        (by rw [setTask_currentState, setSt_currentState]) (by decide) (by decide) ?_ ?_
        (fun hco => absurd hco (by decide))
      · show attachInFlight (setTask (setSt s .inactive none) i .taskDone) = 0
        cases hia : PC.inAttach a <;> rw [hia] at e1 hAw <;>
          simp [PC.inAttach] at e1 hAw <;> omega
      · show detachInFlight (setTask (setSt s .inactive none) i .taskDone) = 0
        simp [PC.inDetach] at e2
        omega
    · -- connected: invoke `startListener` and suspend on it
      next b hconn =>
      have ht' : (Sys.tasks { s with attachCalls := s.attachCalls + 1 })[i]? = some a := ht
      have e1 := attachInFlight_setTask { s with attachCalls := s.attachCalls + 1 }
        i a .sAttachAwait ht'
      have e2 := detachInFlight_setTask { s with attachCalls := s.attachCalls + 1 }
        i a .sAttachAwait ht'
      rw [hDa] at e2
      refine sysInv_buildStarting _ (by rw [setTask_currentState]; exact hc) ?_ ?_
      · show attachInFlight
          (setTask { s with attachCalls := s.attachCalls + 1 } i .sAttachAwait) ≤ 1
        have hA' : attachInFlight { s with attachCalls := s.attachCalls + 1 }
            = attachInFlight s := rfl
        rw [hA'] at e1
        cases hia : PC.inAttach a <;> rw [hia] at e1 hAw <;>
          simp [PC.inAttach] at e1 hAw <;> omega
      · show detachInFlight
          (setTask { s with attachCalls := s.attachCalls + 1 } i .sAttachAwait) = 0
        have hD' : detachInFlight { s with attachCalls := s.attachCalls + 1 }
            = detachInFlight s := rfl
        rw [hD'] at e2
        simp [PC.inDetach] at e2
        omega

theorem sysInv_setTask_same (s : Sys) (i : Nat) (a pc : PC) (ht : s.tasks[i]? = some a)
    (hA : PC.inAttach a = PC.inAttach pc) (hD : PC.inDetach a = PC.inDetach pc)
    (h : SysInv s) : SysInv (setTask s i pc) := by
  refine sysInv_congr s _ rfl ?_ ?_ rfl h
  · have e := attachInFlight_setTask s i a pc ht; rw [hA] at e; omega
  · have e := detachInFlight_setTask s i a pc ht; rw [hD] at e; omega

theorem sysInv_startDispatch (s : Sys) (i : Nat) (inp : ExecIn)
    (h : SysInv s) (ht : s.tasks[i]? = some .sEntry) :
    SysInv (startDispatch s i inp) := by
  unfold startDispatch
  split_ifs with hA hS hP
  · exact sysInv_setTask_same s i .sEntry .taskDone ht rfl rfl h
  · exact sysInv_setTask_same s i .sEntry (.parked [.active, .fatal] true) ht rfl rfl h
  · exact sysInv_setTask_same s i .sEntry (.parked [.inactive, .zombie] true) ht rfl rfl h
  · have hA0 : attachInFlight s = 0 := (h.2.2.1 hS hP).1
    have hD0 : detachInFlight s = 0 := (h.2.2.1 hS hP).2
    have hmt : (Sys.tasks { s with stopLogListener := none })[i]? = some PC.sEntry := ht
    have hbt : (setSt { s with stopLogListener := none } .starting none).tasks[i]?
        = some PC.sEntry := by
      have := setSt_tasks_getElem { s with stopLogListener := none } .starting none i
        .sEntry hmt
      simpa [wakePC] using this
    have hAb : attachInFlight (setSt { s with stopLogListener := none } .starting none)
        = attachInFlight s := by
      rw [attachInFlight_setSt]; rfl
    have hDb : detachInFlight (setSt { s with stopLogListener := none } .starting none)
        = detachInFlight s := by
      rw [detachInFlight_setSt]; rfl
    refine sysInv_attachLoopTop _ i inp .sEntry ?_ (setSt_currentState _ _ _) hbt ?_
    · refine sysInv_buildStarting _ (setSt_currentState _ _ _) ?_ ?_
      · rw [hAb, hA0]; omega
      · rw [hDb, hD0]
    · rw [hAb, hA0]
      simp [PC.inAttach]

theorem sysInv_attachResume (s : Sys) (i : Nat) (inp : ExecIn)
    (h : SysInv s) (ht : s.tasks[i]? = some .sAttachAwait) :
    SysInv (attachResume s i inp) := by
  have hA1 : 1 ≤ attachInFlight s := attach_pos_of_getElem s i _ ht rfl
  have hc : s.currentState = .starting := state_starting_of_attach s h hA1
  have hAle : attachInFlight s ≤ 1 := (h.1 hc).2
  have hD : detachInFlight s = 0 := (h.1 hc).1
  unfold attachResume
  split
  · -- startListener succeeded: store the token, set `active`, resolve
    next tok heq =>
    refine sysInv_finishActive { s with stopLogListener := some tok } i .sAttachAwait
      ht ?_ hD rfl (by simp)
    simp [PC.inAttach]
    show attachInFlight s ≤ 1
    omega
  · next e heq =>
    split_ifs with hcnt
    · -- retries exhausted: set `fatal`, resolve without throwing
      have hsbt : (setSt s .fatal (some e)).tasks[i]? = some .sAttachAwait := by
        have := setSt_tasks_getElem s .fatal (some e) i _ ht
        simpa [wakePC] using this
      have e1 := attachInFlight_setTask (setSt s .fatal (some e)) i _ .taskDone hsbt
      have e2 := detachInFlight_setTask (setSt s .fatal (some e)) i _ .taskDone hsbt
      rw [attachInFlight_setSt] at e1
      rw [detachInFlight_setSt, hD] at e2
      refine sysInv_build _ .fatal
        (by rw [setTask_currentState, setSt_currentState]) (by decide) (by decide) ?_ ?_
        (fun hco => absurd hco (by decide))
      · show attachInFlight (setTask (setSt s .fatal (some e)) i .taskDone) = 0
        simp [PC.inAttach] at e1; omega
      · show detachInFlight (setTask (setSt s .fatal (some e)) i .taskDone) = 0
        simp [PC.inDetach] at e2; omega
    · -- retries remain: decrement, sleep, stay in the loop
      have ht' : (Sys.tasks { s with restartCnt := s.restartCnt - 1, sleepLog := s.sleepLog ++ [RESTART_SLEEP] })[i]? = some PC.sAttachAwait := ht
      have e1 := attachInFlight_setTask { s with restartCnt := s.restartCnt - 1, sleepLog := s.sleepLog ++ [RESTART_SLEEP] } i _ .sSleep ht'
      have e2 := detachInFlight_setTask { s with restartCnt := s.restartCnt - 1, sleepLog := s.sleepLog ++ [RESTART_SLEEP] } i _ .sSleep ht'
      refine sysInv_buildStarting _ (by rw [setTask_currentState]; exact hc) ?_ ?_
      · show attachInFlight (setTask { s with restartCnt := s.restartCnt - 1, sleepLog := s.sleepLog ++ [RESTART_SLEEP] } i .sSleep) ≤ 1
        have hA' : attachInFlight { s with restartCnt := s.restartCnt - 1, sleepLog := s.sleepLog ++ [RESTART_SLEEP] } = attachInFlight s := rfl
        rw [hA'] at e1
        simp [PC.inAttach] at e1; omega
      · show detachInFlight (setTask { s with restartCnt := s.restartCnt - 1, sleepLog := s.sleepLog ++ [RESTART_SLEEP] } i .sSleep) = 0
        have hD' : detachInFlight { s with restartCnt := s.restartCnt - 1, sleepLog := s.sleepLog ++ [RESTART_SLEEP] } = detachInFlight s := rfl
        rw [hD'] at e2
        simp [PC.inDetach] at e2; omega

theorem sysInv_sleepResume (s : Sys) (i : Nat) (inp : ExecIn)
    (h : SysInv s) (ht : s.tasks[i]? = some .sSleep) :
    SysInv (attachLoopTop s i inp) := by
  have hA1 : 1 ≤ attachInFlight s := attach_pos_of_getElem s i _ ht rfl
  have hc : s.currentState = .starting := state_starting_of_attach s h hA1
  have hAle : attachInFlight s ≤ 1 := (h.1 hc).2
  refine sysInv_attachLoopTop s i inp .sSleep h hc ht ?_
  simp [PC.inAttach]
  omega

theorem sysInv_stopDispatch (s : Sys) (i : Nat) (inp : ExecIn)
    (h : SysInv s) (ht : s.tasks[i]? = some .tEntry) :
    SysInv (stopDispatch s i inp) := by
  unfold stopDispatch
  split_ifs with h1 h2 h3
  · exact sysInv_setTask_same s i .tEntry .taskDone ht rfl rfl h
  · exact sysInv_setTask_same s i .tEntry (.parked [.inactive, .zombie] false) ht rfl rfl h
  · exact sysInv_setTask_same s i .tEntry (.parked [.active, .fatal] false) ht rfl rfl h
  · have hact : s.currentState = .active := by
      cases hcs : s.currentState <;> simp_all
    have hA0 : attachInFlight s = 0 := (h.2.2.1 (by simp [hact]) (by simp [hact])).1
    have hD0 : detachInFlight s = 0 := (h.2.2.1 (by simp [hact]) (by simp [hact])).2
    have htok : s.stopLogListener ≠ none := h.2.2.2 hact
    have hs1t : (setSt s .stopping none).tasks[i]? = some PC.tEntry := by
      have := setSt_tasks_getElem s .stopping none i _ ht
      simpa [wakePC] using this
    split
    · next heq =>
      rw [setSt_stopLogListener] at heq
      exact absurd heq htok
    · next x heq =>
      have ht' : (bumpTeardown (setSt s .stopping none)).tasks[i]? = some PC.tEntry := hs1t
      have e1 := attachInFlight_setTask (bumpTeardown (setSt s .stopping none)) i _
        .tTeardownAwait ht'
      have e2 := detachInFlight_setTask (bumpTeardown (setSt s .stopping none)) i _
        .tTeardownAwait ht'
      have hA' : attachInFlight (bumpTeardown (setSt s .stopping none))
          = attachInFlight s := by
        show (setSt s .stopping none).tasks.countP PC.inAttach = attachInFlight s
        exact attachInFlight_setSt s .stopping none
      have hD' : detachInFlight (bumpTeardown (setSt s .stopping none))
          = detachInFlight s := by
        show (setSt s .stopping none).tasks.countP PC.inDetach = detachInFlight s
        exact detachInFlight_setSt s .stopping none
      rw [hA', hA0] at e1
      rw [hD', hD0] at e2
      refine sysInv_buildStopping _ ?_ ?_ ?_
      · rw [setTask_currentState]
        show (setSt s .stopping none).currentState = .stopping
        exact setSt_currentState _ _ _
      · show attachInFlight (setTask (bumpTeardown (setSt s .stopping none)) i
          .tTeardownAwait) = 0
        simp [PC.inAttach] at e1; omega
      · show detachInFlight (setTask (bumpTeardown (setSt s .stopping none)) i
          .tTeardownAwait) ≤ 1
        simp [PC.inDetach] at e2; omega

theorem sysInv_teardownResume (s : Sys) (i : Nat) (inp : ExecIn)
    (h : SysInv s) (ht : s.tasks[i]? = some .tTeardownAwait) :
    SysInv (teardownResume s i inp) := by
  have hD1 : 1 ≤ detachInFlight s := detach_pos_of_getElem s i _ ht rfl
  have hc : s.currentState = .stopping := state_stopping_of_detach s h hD1
  have hA0 : attachInFlight s = 0 := (h.2.1 hc).1
  have hDle : detachInFlight s ≤ 1 := (h.2.1 hc).2
  unfold teardownResume
  split
  · -- teardown succeeded: `inactive`
    next u heq =>
    have hsbt : (setSt s .inactive none).tasks[i]? = some PC.tTeardownAwait := by
      have := setSt_tasks_getElem s .inactive none i _ ht
      simpa [wakePC] using this
    have e1 := attachInFlight_setTask (setSt s .inactive none) i _ .taskDone hsbt
    have e2 := detachInFlight_setTask (setSt s .inactive none) i _ .taskDone hsbt
    rw [attachInFlight_setSt, hA0] at e1
    rw [detachInFlight_setSt] at e2
    refine sysInv_build _ .inactive
      (by rw [setTask_currentState, setSt_currentState]) (by decide) (by decide) ?_ ?_
      (fun hco => absurd hco (by decide))
    · show attachInFlight (setTask (setSt s .inactive none) i .taskDone) = 0
      simp [PC.inAttach] at e1; omega
    · show detachInFlight (setTask (setSt s .inactive none) i .taskDone) = 0
      simp [PC.inDetach] at e2; omega
  · -- teardown threw: `zombie`, error captured, `stop()` still resolves
    next e heq =>
    have hsbt : (setSt s .zombie (some e)).tasks[i]? = some PC.tTeardownAwait := by
      have := setSt_tasks_getElem s .zombie (some e) i _ ht
      simpa [wakePC] using this
    have e1 := attachInFlight_setTask (setSt s .zombie (some e)) i _ .taskDone hsbt
    have e2 := detachInFlight_setTask (setSt s .zombie (some e)) i _ .taskDone hsbt
    rw [attachInFlight_setSt, hA0] at e1
    rw [detachInFlight_setSt] at e2
    refine sysInv_build _ .zombie
      (by rw [setTask_currentState, setSt_currentState]) (by decide) (by decide) ?_ ?_
      (fun hco => absurd hco (by decide))
    · show attachInFlight (setTask (setSt s .zombie (some e)) i .taskDone) = 0
      simp [PC.inAttach] at e1; omega
    · show detachInFlight (setTask (setSt s .zombie (some e)) i .taskDone) = 0
      simp [PC.inDetach] at e2; omega

theorem sysInv_execCmd (s : Sys) (c : Cmd) (h : SysInv s) : SysInv (execCmd s c) := by
  cases c with
  | spawnStart => exact sysInv_spawn s .sEntry rfl rfl h
  | spawnStop => exact sysInv_spawn s .tEntry rfl rfl h
  | exec i inp =>
    show SysInv (execTask s i inp)
    unfold execTask
    split
    · exact h
    · next heq => exact sysInv_startDispatch s i inp h heq
    · next heq => exact sysInv_attachResume s i inp h heq
    · next heq => exact sysInv_sleepResume s i inp h heq
    · next heq => exact sysInv_stopDispatch s i inp h heq
    · next heq => exact sysInv_teardownResume s i inp h heq
    · exact h

theorem sysInv_foldl (cmds : List Cmd) (s : Sys) (h : SysInv s) :
    SysInv (cmds.foldl execCmd s) := by
  induction cmds generalizing s with
  | nil => exact h
  | cons c rest ih => exact ih _ (sysInv_execCmd s c h)

theorem sysInv_run (cmds : List Cmd) : SysInv (run cmds) :=
  sysInv_foldl cmds initSys (by unfold SysInv; decide)

theorem attachInFlight_le_one (s : Sys) (h : SysInv s) : attachInFlight s ≤ 1 := by
  rcases Decidable.em (s.currentState = .starting) with hs | hs
  · exact (h.1 hs).2
  · rcases Decidable.em (s.currentState = .stopping) with hp | hp
    · rw [(h.2.1 hp).1]; omega
    · rw [(h.2.2.1 hs hp).1]; omega

theorem detachInFlight_le_one (s : Sys) (h : SysInv s) : detachInFlight s ≤ 1 := by
  rcases Decidable.em (s.currentState = .stopping) with hs | hs
  · exact (h.2.1 hs).2
  · rcases Decidable.em (s.currentState = .starting) with hp | hp
    · rw [(h.1 hp).1]; omega
    · rw [(h.2.2.1 hp hs).2]; omega

theorem start_coalesce_step (s : Sys) (i : Nat) (inp : ExecIn)
    (hc : s.currentState = .starting) (ht : s.tasks[i]? = some .sEntry) :
    (execCmd s (.exec i inp)).attachCalls = s.attachCalls
    ∧ (execCmd s (.exec i inp)).tasks[i]? = some (.parked [.active, .fatal] true) := by
  have hlt := getElem_lt_length _ _ _ ht
  show (execTask s i inp).attachCalls = _ ∧ (execTask s i inp).tasks[i]? = _
  unfold execTask
  rw [ht]
  unfold startDispatch
  rw [hc]
  simp only [reduceCtorEq, if_false, if_true, reduceIte]
  exact ⟨rfl, setTask_getElem s i _ hlt⟩

theorem idx_ne_of_getElem (l : List PC) (i j : Nat) (a b : PC) (ha : l[i]? = some a)
    (hb : l[j]? = some b) (hab : a ≠ b) : j ≠ i := by
  intro hji
  subst hji
  rw [ha] at hb
  cases hb
  exact hab rfl

theorem setTask_getElem_ne (s : Sys) (j : Nat) (pc : PC) (i : Nat) (hne : j ≠ i) :
    (setTask s j pc).tasks[i]? = s.tasks[i]? := by
  simp [setTask, List.getElem?_set, hne]

theorem parked_af_setSt_other (s : Sys) (st : DeviceLogListenerState) (err : Option Err)
    (i : Nat) (ht : s.tasks[i]? = some (.parked [.active, .fatal] true))
    (hw : wakePC st (.parked [.active, .fatal] true) = .parked [.active, .fatal] true) :
    (setSt s st err).tasks[i]? = some (.parked [.active, .fatal] true) := by
  have h := setSt_tasks_getElem s st err i _ ht
  rw [hw] at h
  exact h

theorem parked_af_setSt_wake (s : Sys) (st : DeviceLogListenerState) (err : Option Err)
    (i : Nat) (ht : s.tasks[i]? = some (.parked [.active, .fatal] true))
    (hw : wakePC st (.parked [.active, .fatal] true) = .sEntry) :
    (setSt s st err).tasks[i]? = some .sEntry := by
  have h := setSt_tasks_getElem s st err i _ ht
  rw [hw] at h
  exact h

theorem parked_step (s : Sys) (c : Cmd) (i : Nat)
    (ht : s.tasks[i]? = some (.parked [.active, .fatal] true)) :
    (execCmd s c).tasks[i]? = some (.parked [.active, .fatal] true)
    ∨ (((execCmd s c).currentState = .active ∨ (execCmd s c).currentState = .fatal)
        ∧ (execCmd s c).tasks[i]? = some .sEntry) := by
  have hlt := getElem_lt_length _ _ _ ht
  cases c with
  | spawnStart =>
    left
    show (s.tasks ++ [PC.sEntry])[i]? = _
    rw [List.getElem?_append]
    simp [hlt, ht]
  | spawnStop =>
    left
    show (s.tasks ++ [PC.tEntry])[i]? = _
    rw [List.getElem?_append]
    simp [hlt, ht]
  | exec j inp =>
    show (execTask s j inp).tasks[i]? = some (.parked [.active, .fatal] true)
      ∨ (((execTask s j inp).currentState = .active
          ∨ (execTask s j inp).currentState = .fatal)
        ∧ (execTask s j inp).tasks[i]? = some .sEntry)
    unfold execTask
    split
    · exact Or.inl ht
    · -- a ready start() call runs its dispatch
      next hj =>
      have hne : j ≠ i := idx_ne_of_getElem _ _ _ _ _ ht hj (by decide)
      unfold startDispatch
      split_ifs with h1 h2 h3
      · left; rw [setTask_getElem_ne _ _ _ _ hne]; exact ht
      · left; rw [setTask_getElem_ne _ _ _ _ hne]; exact ht
      · left; rw [setTask_getElem_ne _ _ _ _ hne]; exact ht
      · have hb : (setSt { s with stopLogListener := none } .starting none).tasks[i]?
            = some (.parked [.active, .fatal] true) :=
          parked_af_setSt_other _ _ _ _ ht (by decide)
        unfold attachLoopTop
        split
        · next x heq =>
          right
          constructor
          · left
            unfold finishActive
            rw [setTask_currentState, setSt_currentState]
          · unfold finishActive
            rw [setTask_getElem_ne _ _ _ _ hne]
            exact parked_af_setSt_wake _ _ _ _ hb (by decide)
        · next heq =>
          split
          · next e hconn => left; rw [setTask_getElem_ne _ _ _ _ hne]; exact hb
          · next hconn =>
            left
            rw [setTask_getElem_ne _ _ _ _ hne]
            exact parked_af_setSt_other _ _ _ _ hb (by decide)
          · next b hconn => left; rw [setTask_getElem_ne _ _ _ _ hne]; exact hb
    · -- an attach attempt resumes from `await startListener()`
      next hj =>
      have hne : j ≠ i := idx_ne_of_getElem _ _ _ _ _ ht hj (by decide)
      unfold attachResume
      split
      · next tok heq =>
        right
        constructor
        · left
          unfold finishActive
          rw [setTask_currentState, setSt_currentState]
        · unfold finishActive
          rw [setTask_getElem_ne _ _ _ _ hne]
          exact parked_af_setSt_wake { s with stopLogListener := some tok } _ _ _ ht (by decide)
      · next e heq =>
        split_ifs with hcnt
        · right
          constructor
          · right; rw [setTask_currentState, setSt_currentState]
          · rw [setTask_getElem_ne _ _ _ _ hne]
            exact parked_af_setSt_wake _ _ _ _ ht (by decide)
        · left; rw [setTask_getElem_ne _ _ _ _ hne]; exact ht
    · -- an attach attempt resumes from the backoff sleep
      next hj =>
      have hne : j ≠ i := idx_ne_of_getElem _ _ _ _ _ ht hj (by decide)
      unfold attachLoopTop
      split
      · next x heq =>
        right
        constructor
        · left
          unfold finishActive
          rw [setTask_currentState, setSt_currentState]
        · unfold finishActive
          rw [setTask_getElem_ne _ _ _ _ hne]
          exact parked_af_setSt_wake _ _ _ _ ht (by decide)
      · next heq =>
        split
        · next e hconn => left; rw [setTask_getElem_ne _ _ _ _ hne]; exact ht
        · next hconn =>
          left
          rw [setTask_getElem_ne _ _ _ _ hne]
          exact parked_af_setSt_other _ _ _ _ ht (by decide)
        · next b hconn => left; rw [setTask_getElem_ne _ _ _ _ hne]; exact ht
    · -- a ready stop() call runs its dispatch
      next hj =>
      have hne : j ≠ i := idx_ne_of_getElem _ _ _ _ _ ht hj (by decide)
      unfold stopDispatch
      split_ifs with h1 h2 h3
      · left; rw [setTask_getElem_ne _ _ _ _ hne]; exact ht
      · left; rw [setTask_getElem_ne _ _ _ _ hne]; exact ht
      · left; rw [setTask_getElem_ne _ _ _ _ hne]; exact ht
      · have hb : (setSt s .stopping none).tasks[i]?
            = some (.parked [.active, .fatal] true) :=
          parked_af_setSt_other _ _ _ _ ht (by decide)
        split
        · next heq =>
          left
          rw [setTask_getElem_ne _ _ _ _ hne]
          exact parked_af_setSt_other _ _ _ _ hb (by decide)
        · next x heq =>
          left
          rw [setTask_getElem_ne _ _ _ _ hne]
          exact hb
    · -- a detach resumes from `await stopLogListener()`
      next hj =>
      have hne : j ≠ i := idx_ne_of_getElem _ _ _ _ _ ht hj (by decide)
      unfold teardownResume
      split
      · next u heq =>
        left
        rw [setTask_getElem_ne _ _ _ _ hne]
        exact parked_af_setSt_other _ _ _ _ ht (by decide)
      · next e heq =>
        left
        rw [setTask_getElem_ne _ _ _ _ hne]
        exact parked_af_setSt_other _ _ _ _ ht (by decide)
    · exact Or.inl ht

/-! ### Effects on the fatal-entry and auto-restart counters -/

theorem hookActive_fatalEntries (s : Sys) : (hookActive s).fatalEntries = s.fatalEntries := by
  unfold hookActive; split_ifs <;> rfl

theorem hookActive_autoRestarts (s : Sys) : (hookActive s).autoRestarts = s.autoRestarts := by
  unfold hookActive; split_ifs <;> rfl

theorem fatalEntries_setSt_ne (s : Sys) (st : DeviceLogListenerState) (err : Option Err)
    (h : st ≠ .fatal) : (setSt s st err).fatalEntries = s.fatalEntries := by
  unfold setSt
  split_ifs with h1 h2
  · exact absurd h1 h
  · rw [hookActive_fatalEntries]; rfl
  · rfl

theorem autoRestarts_setSt_ne (s : Sys) (st : DeviceLogListenerState) (err : Option Err)
    (h : st ≠ .fatal) : (setSt s st err).autoRestarts = s.autoRestarts := by
  unfold setSt
  split_ifs with h1 h2
  · exact absurd h1 h
  · rw [hookActive_autoRestarts]; rfl
  · rfl

theorem fatalEntries_setSt_fatal (s : Sys) (err : Option Err) :
    (setSt s .fatal err).fatalEntries = s.fatalEntries + 1 := by
  unfold setSt
  simp only [reduceIte]
  unfold hookFatal
  split_ifs <;> rfl

theorem autoRestarts_setSt_fatal (s : Sys) (err : Option Err) (h : s.restartCnt ≤ 0) :
    (setSt s .fatal err).autoRestarts = s.autoRestarts := by
  unfold setSt
  simp only [reduceIte]
  unfold hookFatal
  split_ifs with h1 h2
  · rfl
  · have h2' : 0 < s.restartCnt := h2
    omega
  · rfl

theorem fatal_entry_step (s : Sys) (c : Cmd)
    (hf : (execCmd s c).fatalEntries ≠ s.fatalEntries) :
    s.restartCnt ≤ 0
    ∧ ((execCmd s c).autoRestarts = s.autoRestarts + 1 ↔ 0 < s.restartCnt) := by
  cases c with
  | spawnStart => exact absurd rfl hf
  | spawnStop => exact absurd rfl hf
  | exec i inp =>
    show s.restartCnt ≤ 0 ∧ ((execTask s i inp).autoRestarts = s.autoRestarts + 1 ↔ _)
    replace hf : (execTask s i inp).fatalEntries ≠ s.fatalEntries := hf
    unfold execTask at hf ⊢
    split at hf
    · exact absurd rfl hf
    · -- start() dispatch never enters fatal within its own segment
      next hj =>
      exfalso
      apply hf
      unfold startDispatch
      split_ifs
      · rfl
      · rfl
      · rfl
      · unfold attachLoopTop
        split
        · unfold finishActive
          show (setSt _ DeviceLogListenerState.active none).fatalEntries = _
          rw [fatalEntries_setSt_ne _ DeviceLogListenerState.active _ (by decide)]
          rfl
        · split
          · rfl
          · rfl
          · rfl
    · -- resumption of startListener: the only entry into fatal
      next hj =>
      unfold attachResume at hf ⊢
      split at hf
      · next tok heq =>
        exfalso
        apply hf
        unfold finishActive
        show (setSt _ DeviceLogListenerState.active none).fatalEntries = _
        rw [fatalEntries_setSt_ne _ DeviceLogListenerState.active _ (by decide)]
      · next e heq =>
        split_ifs at hf with hcnt
        · refine ⟨hcnt, ?_⟩
          split_ifs
          show (setSt s .fatal (some e)).autoRestarts = s.autoRestarts + 1 ↔ 0 < s.restartCnt
          rw [autoRestarts_setSt_fatal s _ hcnt]
          constructor
          · intro hcon; omega
          · intro hcon; omega
        · exact absurd rfl hf
    · -- resumption of the backoff sleep never enters fatal
      next hj =>
      exfalso
      apply hf
      unfold attachLoopTop
      split
      · unfold finishActive
        show (setSt _ DeviceLogListenerState.active none).fatalEntries = _
        rw [fatalEntries_setSt_ne _ DeviceLogListenerState.active _ (by decide)]
      · split
        · rfl
        · rfl
        · rfl
    · -- stop() dispatch never enters fatal
      next hj =>
      exfalso
      apply hf
      unfold stopDispatch
      split_ifs
      · rfl
      · rfl
      · rfl
      · split
        · rfl
        · rfl
    · -- teardown resumption never enters fatal
      next hj =>
      exfalso
      apply hf
      unfold teardownResume
      split
      · rfl
      · rfl
    · exact absurd rfl hf

/-! ### Absorption of capability errors -/

theorem wakePC_not_failed (st : DeviceLogListenerState) (pc : PC) (e : Err)
    (h : pc ≠ .taskFailed e) : wakePC st pc ≠ .taskFailed e := by
  cases pc with
  | parked ws b =>
    simp only [wakePC]
    split_ifs <;> simp
  | taskFailed e2 => simpa [wakePC] using h
  | sEntry => simp [wakePC]
  | sAttachAwait => simp [wakePC]
  | sSleep => simp [wakePC]
  | tEntry => simp [wakePC]
  | tTeardownAwait => simp [wakePC]
  | taskDone => simp [wakePC]

theorem noFailedL_map_wake (l : List PC) (st : DeviceLogListenerState)
    (h : ∀ pc ∈ l, ∀ e, pc ≠ PC.taskFailed e) :
    ∀ pc ∈ l.map (wakePC st), ∀ e, pc ≠ PC.taskFailed e := by
  intro pc hmem e
  obtain ⟨a, ha, rfl⟩ := List.mem_map.mp hmem
  exact wakePC_not_failed st a e (h a ha e)

theorem noFailedL_append_one (l : List PC) (pc0 : PC)
    (h : ∀ pc ∈ l, ∀ e, pc ≠ PC.taskFailed e) (h0 : ∀ e, pc0 ≠ PC.taskFailed e) :
    ∀ pc ∈ l ++ [pc0], ∀ e, pc ≠ PC.taskFailed e := by
  intro pc hmem e
  rcases List.mem_append.mp hmem with hm | hm
  · exact h pc hm e
  · rw [List.mem_singleton.mp hm]; exact h0 e

theorem noFailedL_set (l : List PC) (i : Nat) (pc0 : PC)
    (h : ∀ pc ∈ l, ∀ e, pc ≠ PC.taskFailed e) (h0 : ∀ e, pc0 ≠ PC.taskFailed e) :
    ∀ pc ∈ l.set i pc0, ∀ e, pc ≠ PC.taskFailed e := by
  intro pc hmem e
  rcases List.mem_or_eq_of_mem_set hmem with hm | hm
  · exact h pc hm e
  · rw [hm]; exact h0 e

/-- No pending call has rejected. -/
def NoFailed (s : Sys) : Prop := ∀ pc ∈ s.tasks, ∀ e, pc ≠ PC.taskFailed e

theorem noFailed_setSt (s : Sys) (st : DeviceLogListenerState) (err : Option Err)
    (h : NoFailed s) : NoFailed (setSt s st err) := by
  have hbase : ∀ pc ∈ (setStBase s st err).tasks, ∀ e, pc ≠ PC.taskFailed e :=
    noFailedL_map_wake s.tasks st h
  unfold setSt
  split_ifs
  · show ∀ pc ∈ (hookFatal (setStBase s st err)).tasks, _
    unfold hookFatal
    split_ifs
    · exact hbase
    · exact noFailedL_append_one _ _ hbase (by intro e; simp)
    · exact hbase
  · show ∀ pc ∈ (hookActive (setStBase s st err)).tasks, _
    rw [hookActive_tasks]
    exact hbase
  · exact hbase

theorem noFailed_setTask (s : Sys) (i : Nat) (pc0 : PC) (h : NoFailed s)
    (h0 : ∀ e, pc0 ≠ PC.taskFailed e) : NoFailed (setTask s i pc0) :=
  noFailedL_set s.tasks i pc0 h h0

theorem noFailed_execCmd (s : Sys) (c : Cmd) (hc : cmdConnOk c = true)
    (h : NoFailed s) : NoFailed (execCmd s c) := by
  cases c with
  | spawnStart => exact noFailedL_append_one _ _ h (by intro e; simp)
  | spawnStop => exact noFailedL_append_one _ _ h (by intro e; simp)
  | exec i inp =>
    show NoFailed (execTask s i inp)
    unfold execTask
    split
    · exact h
    · -- start() dispatch
      unfold startDispatch
      split_ifs
      · exact noFailed_setTask _ _ _ h (by intro e; simp)
      · exact noFailed_setTask _ _ _ h (by intro e; simp)
      · exact noFailed_setTask _ _ _ h (by intro e; simp)
      · have hb : NoFailed (setSt { s with stopLogListener := none } .starting none) :=
          noFailed_setSt _ _ _ h
        unfold attachLoopTop
        split
        · exact noFailed_setTask _ _ _ (noFailed_setSt _ _ _ hb) (by intro e; simp)
        · split
          · next e0 hconn =>
            exfalso
            have : cmdConnOk (.exec i inp) = false := by
              show (match inp.conn with | .ok _ => true | .error _ => false) = false
              rw [hconn]
            rw [hc] at this
            cases this
          · exact noFailed_setTask _ _ _ (noFailed_setSt _ _ _ hb) (by intro e; simp)
          · exact noFailed_setTask _ _ _ hb (by intro e; simp)
    · -- attach resumption
      unfold attachResume
      split
      · exact noFailed_setTask _ _ _ (noFailed_setSt _ _ _ h) (by intro e; simp)
      · split_ifs
        · exact noFailed_setTask _ _ _ (noFailed_setSt _ _ _ h) (by intro e; simp)
        · exact noFailed_setTask _ _ _ h (by intro e; simp)
    · -- sleep resumption
      unfold attachLoopTop
      split
      · exact noFailed_setTask _ _ _ (noFailed_setSt _ _ _ h) (by intro e; simp)
      · split
        · next e0 hconn =>
          exfalso
          have : cmdConnOk (.exec i inp) = false := by
            show (match inp.conn with | .ok _ => true | .error _ => false) = false
            rw [hconn]
          rw [hc] at this
          cases this
        · exact noFailed_setTask _ _ _ (noFailed_setSt _ _ _ h) (by intro e; simp)
        · exact noFailed_setTask _ _ _ h (by intro e; simp)
    · -- stop() dispatch
      unfold stopDispatch
      split_ifs
      · exact noFailed_setTask _ _ _ h (by intro e; simp)
      · exact noFailed_setTask _ _ _ h (by intro e; simp)
      · exact noFailed_setTask _ _ _ h (by intro e; simp)
      · split
        · exact noFailed_setTask _ _ _
            (noFailed_setSt _ _ _ (noFailed_setSt _ _ _ h)) (by intro e; simp)
        · exact noFailed_setTask _ _ _ (noFailed_setSt _ _ _ h) (by intro e; simp)
    · -- teardown resumption
      unfold teardownResume
      split
      · exact noFailed_setTask _ _ _ (noFailed_setSt _ _ _ h) (by intro e; simp)
      · exact noFailed_setTask _ _ _ (noFailed_setSt _ _ _ h) (by intro e; simp)
    · exact h

theorem noFailed_foldl (cmds : List Cmd) (s : Sys)
    (hok : ∀ c ∈ cmds, cmdConnOk c = true) (h : NoFailed s) :
    NoFailed (cmds.foldl execCmd s) := by
  induction cmds generalizing s with
  | nil => exact h
  | cons c rest ih =>
    exact ih _ (fun d hd => hok d (List.mem_cons_of_mem c hd))
      (noFailed_execCmd s c (hok c (List.mem_cons_self c rest)) h)

theorem noFailed_run (cmds : List Cmd) (hok : ∀ c ∈ cmds, cmdConnOk c = true) :
    NoFailed (run cmds) :=
  noFailed_foldl cmds initSys hok (by intro pc hmem e; cases hmem)

theorem teardownCalls_setSt (s : Sys) (st : DeviceLogListenerState) (err : Option Err) :
    (setSt s st err).teardownCalls = s.teardownCalls := by
  unfold setSt hookFatal hookActive
  split_ifs <;> rfl

theorem execTask_eq_start (s : Sys) (i : Nat) (inp : ExecIn)
    (ht : s.tasks[i]? = some .sEntry) : execTask s i inp = startDispatch s i inp := by
  unfold execTask; rw [ht]

theorem execTask_eq_attachResume (s : Sys) (i : Nat) (inp : ExecIn)
    (ht : s.tasks[i]? = some .sAttachAwait) : execTask s i inp = attachResume s i inp := by
  unfold execTask; rw [ht]

theorem execTask_eq_sleepResume (s : Sys) (i : Nat) (inp : ExecIn)
    (ht : s.tasks[i]? = some .sSleep) : execTask s i inp = attachLoopTop s i inp := by
  unfold execTask; rw [ht]

theorem execTask_eq_stop (s : Sys) (i : Nat) (inp : ExecIn)
    (ht : s.tasks[i]? = some .tEntry) : execTask s i inp = stopDispatch s i inp := by
  unfold execTask; rw [ht]

theorem execTask_eq_teardown (s : Sys) (i : Nat) (inp : ExecIn)
    (ht : s.tasks[i]? = some .tTeardownAwait) :
    execTask s i inp = teardownResume s i inp := by
  unfold execTask; rw [ht]

theorem conn_throw_step (s : Sys) (i : Nat) (inp : ExecIn) (e : Err)
    (hst : s.currentState = .inactive ∨ s.currentState = .zombie ∨ s.currentState = .fatal)
    (ht : s.tasks[i]? = some .sEntry) (hconn : inp.conn = .error e) :
    (execCmd s (.exec i inp)).tasks[i]? = some (.taskFailed e)
    ∧ (execCmd s (.exec i inp)).currentState = .starting := by
  have hlt := getElem_lt_length _ _ _ ht
  show (execTask s i inp).tasks[i]? = _ ∧ (execTask s i inp).currentState = _
  rw [execTask_eq_start s i inp ht]
  unfold startDispatch
  have h1 : ¬ s.currentState = .active := by rcases hst with h | h | h <;> rw [h] <;> decide
  have h2 : ¬ s.currentState = .starting := by rcases hst with h | h | h <;> rw [h] <;> decide
  have h3 : ¬ s.currentState = .stopping := by rcases hst with h | h | h <;> rw [h] <;> decide
  rw [if_neg h1, if_neg h2, if_neg h3]
  unfold attachLoopTop
  split
  · next x heq =>
    rw [setSt_stopLogListener] at heq
    exact Option.noConfusion heq
  · next heq =>
    split
    · next e2 hc2 =>
      rw [hconn] at hc2
      injection hc2 with he
      subst he
      refine ⟨?_, ?_⟩
      · exact setTask_getElem _ _ _
          (lt_of_lt_of_le hlt (setSt_tasks_length { s with stopLogListener := none } _ _))
      · rw [setTask_currentState, setSt_currentState]
    · next hc2 => rw [hconn] at hc2; cases hc2
    · next b hc2 => rw [hconn] at hc2; cases hc2

theorem stop_missing_token_step (s : Sys) (i : Nat) (inp : ExecIn)
    (hc : s.currentState = .active) (htok : s.stopLogListener = none)
    (ht : s.tasks[i]? = some .tEntry) :
    (execCmd s (.exec i inp)).currentState = .zombie
    ∧ (execCmd s (.exec i inp)).lastError = some .assertionFailed
    ∧ (execCmd s (.exec i inp)).tasks[i]? = some .taskDone
    ∧ (execCmd s (.exec i inp)).teardownCalls = s.teardownCalls := by
  have hlt := getElem_lt_length _ _ _ ht
  show (execTask s i inp).currentState = _ ∧ (execTask s i inp).lastError = _
    ∧ (execTask s i inp).tasks[i]? = _ ∧ (execTask s i inp).teardownCalls = _
  rw [execTask_eq_stop s i inp ht]
  unfold stopDispatch
  have h1 : ¬ (s.currentState = .inactive ∨ s.currentState = .fatal
      ∨ s.currentState = .zombie) := by rw [hc]; decide
  have h2 : ¬ s.currentState = .stopping := by rw [hc]; decide
  have h3 : ¬ s.currentState = .starting := by rw [hc]; decide
  rw [if_neg h1, if_neg h2, if_neg h3]
  split
  · next heq =>
    refine ⟨?_, ?_, ?_, ?_⟩
    · rw [setTask_currentState, setSt_currentState]
    · rw [setTask_lastError, setSt_lastError]
    · exact setTask_getElem _ _ _
        (lt_of_lt_of_le hlt (le_trans (setSt_tasks_length s _ _)
          (setSt_tasks_length (setSt s .stopping none) _ _)))
    · show (setSt (setSt s .stopping none) .zombie (some .assertionFailed)).teardownCalls = _
      rw [teardownCalls_setSt, teardownCalls_setSt]
  · next x heq =>
    rw [setSt_stopLogListener, htok] at heq
    exact Option.noConfusion heq

theorem stop_from_active_step (s : Sys) (i : Nat) (inp : ExecIn) (tok : Nat)
    (hc : s.currentState = .active) (htok : s.stopLogListener = some tok)
    (ht : s.tasks[i]? = some .tEntry) :
    (execCmd s (.exec i inp)).currentState = .stopping
    ∧ (execCmd s (.exec i inp)).tasks[i]? = some .tTeardownAwait
    ∧ (execCmd s (.exec i inp)).stopLogListener = some tok
    ∧ (execCmd s (.exec i inp)).teardownCalls = s.teardownCalls + 1 := by
  have hlt := getElem_lt_length _ _ _ ht
  show (execTask s i inp).currentState = _ ∧ (execTask s i inp).tasks[i]? = _
    ∧ (execTask s i inp).stopLogListener = _ ∧ (execTask s i inp).teardownCalls = _
  rw [execTask_eq_stop s i inp ht]
  unfold stopDispatch
  have h1 : ¬ (s.currentState = .inactive ∨ s.currentState = .fatal
      ∨ s.currentState = .zombie) := by rw [hc]; decide
  have h2 : ¬ s.currentState = .stopping := by rw [hc]; decide
  have h3 : ¬ s.currentState = .starting := by rw [hc]; decide
  rw [if_neg h1, if_neg h2, if_neg h3]
  split
  · next heq =>
    rw [setSt_stopLogListener, htok] at heq
    exact Option.noConfusion heq
  · next x heq =>
    refine ⟨?_, ?_, ?_, ?_⟩
    · rw [setTask_currentState]
      show (setSt s .stopping none).currentState = _
      exact setSt_currentState _ _ _
    · refine setTask_getElem _ _ _ ?_
      show i < (setSt s .stopping none).tasks.length
      exact lt_of_lt_of_le hlt (setSt_tasks_length s _ _)
    · rw [setTask_stopLogListener]
      show (setSt s .stopping none).stopLogListener = _
      rw [setSt_stopLogListener, htok]
    · show (bumpTeardown (setSt s .stopping none)).teardownCalls = _
      show (setSt s .stopping none).teardownCalls + 1 = _
      rw [teardownCalls_setSt]

theorem teardown_resume_step (s : Sys) (i : Nat) (inp : ExecIn)
    (ht : s.tasks[i]? = some .tTeardownAwait) :
    (∀ u, inp.teardown = .ok u →
      (execCmd s (.exec i inp)).currentState = .inactive
      ∧ (execCmd s (.exec i inp)).lastError = none
      ∧ (execCmd s (.exec i inp)).tasks[i]? = some .taskDone
      ∧ (execCmd s (.exec i inp)).stopLogListener = s.stopLogListener)
    ∧ (∀ e, inp.teardown = .error e →
      (execCmd s (.exec i inp)).currentState = .zombie
      ∧ (execCmd s (.exec i inp)).lastError = some e
      ∧ (execCmd s (.exec i inp)).tasks[i]? = some .taskDone
      ∧ (execCmd s (.exec i inp)).stopLogListener = s.stopLogListener) := by
  have hlt := getElem_lt_length _ _ _ ht
  constructor
  · intro u hu
    show (execTask s i inp).currentState = _ ∧ (execTask s i inp).lastError = _
      ∧ (execTask s i inp).tasks[i]? = _ ∧ (execTask s i inp).stopLogListener = _
    rw [execTask_eq_teardown s i inp ht]
    unfold teardownResume
    split
    · next u2 hu2 =>
      refine ⟨?_, ?_, ?_, ?_⟩
      · rw [setTask_currentState, setSt_currentState]
      · rw [setTask_lastError, setSt_lastError]
      · exact setTask_getElem _ _ _ (lt_of_lt_of_le hlt (setSt_tasks_length s _ _))
      · rw [setTask_stopLogListener, setSt_stopLogListener]
    · next e2 he2 => rw [hu] at he2; cases he2
  · intro e he
    show (execTask s i inp).currentState = _ ∧ (execTask s i inp).lastError = _
      ∧ (execTask s i inp).tasks[i]? = _ ∧ (execTask s i inp).stopLogListener = _
    rw [execTask_eq_teardown s i inp ht]
    unfold teardownResume
    split
    · next u2 hu2 => rw [he] at hu2; cases hu2
    · next e2 he2 =>
      rw [he] at he2
      injection he2 with he3
      subst he3
      refine ⟨?_, ?_, ?_, ?_⟩
      · rw [setTask_currentState, setSt_currentState]
      · rw [setTask_lastError, setSt_lastError]
      · exact setTask_getElem _ _ _ (lt_of_lt_of_le hlt (setSt_tasks_length s _ _))
      · rw [setTask_stopLogListener, setSt_stopLogListener]

/-! ### The guarded-callback registry: at-most-once execution -/

theorem countP_append_one (l : List (Nat × DeviceLogListenerState))
    (x : Nat × DeviceLogListenerState) (p : Nat × DeviceLogListenerState → Bool) :
    (l ++ [x]).countP p = l.countP p + (if p x then 1 else 0) := by
  rw [List.countP_append]
  simp [List.countP_cons]

theorem emitRun_spec (st : DeviceLogListenerState) (toFire : List Entry)
    (fired : List Nat) (log : List (Nat × DeviceLogListenerState))
    (h1 : ∀ id, log.countP (fun p => p.1 == id) ≤ 1)
    (h2 : ∀ en ∈ toFire, 1 ≤ log.countP (fun p => p.1 == en.2.1) → en.2.1 ∈ fired) :
    (∀ id, (emitRun st toFire fired log).2.countP (fun p => p.1 == id) ≤ 1)
    ∧ (∀ id ∈ fired, id ∈ (emitRun st toFire fired log).1)
    ∧ (∀ id, (emitRun st toFire fired log).2.countP (fun p => p.1 == id)
        ≠ log.countP (fun p => p.1 == id) →
        (log.countP (fun p => p.1 == id) = 0
         ∧ (emitRun st toFire fired log).2.countP (fun p => p.1 == id) = 1
         ∧ id ∈ (emitRun st toFire fired log).1
         ∧ id ∈ toFire.map (fun en => en.2.1)))
    ∧ (∀ p ∈ (emitRun st toFire fired log).2,
        p ∈ log ∨ p.1 ∈ toFire.map (fun en => en.2.1))
    ∧ (∀ id ∈ (emitRun st toFire fired log).1,
        id ∈ fired ∨ id ∈ toFire.map (fun en => en.2.1)) := by
  induction toFire generalizing fired log with
  | nil =>
    refine ⟨h1, fun id h => h, fun id hne => absurd rfl hne, fun p hp => Or.inl hp,
      fun id h => Or.inl h⟩
  | cons en rest ih =>
    unfold emitRun
    split_ifs with hmem
    · obtain ⟨c1, c2, c3, c4, c5⟩ :=
        ih fired log h1 (fun en2 hm hc => h2 en2 (List.mem_cons_of_mem en hm) hc)
      refine ⟨c1, c2, ?_, ?_, ?_⟩
      · intro id hne
        obtain ⟨a, b, c, d⟩ := c3 id hne
        exact ⟨a, b, c, by rw [List.map_cons]; exact List.mem_cons_of_mem _ d⟩
      · intro p hp
        rcases c4 p hp with h' | h'
        · exact Or.inl h'
        · exact Or.inr (by rw [List.map_cons]; exact List.mem_cons_of_mem _ h')
      · intro id hid
        rcases c5 id hid with h' | h'
        · exact Or.inl h'
        · exact Or.inr (by rw [List.map_cons]; exact List.mem_cons_of_mem _ h')
    · have hcnt0 : log.countP (fun p => p.1 == en.2.1) = 0 := by
        by_contra hcon
        exact hmem (h2 en (List.mem_cons_self en rest) (by omega))
      have hd : ∀ id, (log ++ [(en.2.1, st)]).countP (fun p => p.1 == id)
          = log.countP (fun p => p.1 == id) + (if id = en.2.1 then 1 else 0) := by
        intro id
        rw [countP_append_one]
        by_cases hcase : id = en.2.1
        · subst hcase
          simp
        · have hns : ¬ (en.2.1 = id) := fun hcon => hcase hcon.symm
          simp [hcase, hns]
      have h1' : ∀ id, (log ++ [(en.2.1, st)]).countP (fun p => p.1 == id) ≤ 1 := by
        intro id
        rw [hd]
        split_ifs with hcase
        · subst hcase; omega
        · have := h1 id; omega
      have h2' : ∀ en2 ∈ rest,
          1 ≤ (log ++ [(en.2.1, st)]).countP (fun p => p.1 == en2.2.1) →
          en2.2.1 ∈ fired ++ [en.2.1] := by
        intro en2 hm hc
        rw [hd] at hc
        rcases Decidable.em (en2.2.1 = en.2.1) with he | he
        · rw [he]; simp
        · rw [if_neg he] at hc
          exact List.mem_append_left _
            (h2 en2 (List.mem_cons_of_mem en hm) (by omega))
      obtain ⟨c1, c2, c3, c4, c5⟩ := ih (fired ++ [en.2.1]) (log ++ [(en.2.1, st)]) h1' h2'
      refine ⟨c1, ?_, ?_, ?_, ?_⟩
      · intro id hid
        exact c2 id (List.mem_append_left _ hid)
      · intro id hne
        by_cases he : (emitRun st rest (fired ++ [en.2.1])
            (log ++ [(en.2.1, st)])).2.countP (fun p => p.1 == id)
            = (log ++ [(en.2.1, st)]).countP (fun p => p.1 == id)
        · -- the recursive run left this id's count as in the extended log
          by_cases hi : id = en.2.1
          · subst hi
            refine ⟨hcnt0, ?_, ?_, by simp⟩
            · rw [he, hd, if_pos rfl]
              omega
            · exact c2 _ (List.mem_append_right _ (by simp))
          · exfalso
            apply hne
            rw [he, hd, if_neg hi]
            omega
        · obtain ⟨a, b, c, d⟩ := c3 id he
          rw [hd] at a
          by_cases hi : id = en.2.1
          · rw [if_pos hi] at a
            omega
          · rw [if_neg hi] at a
            refine ⟨by omega, b, c, ?_⟩
            rw [List.map_cons]
            exact List.mem_cons_of_mem _ d
      · intro p hp
        rcases c4 p hp with h' | h'
        · rcases List.mem_append.mp h' with h'' | h''
          · exact Or.inl h''
          · rw [List.mem_singleton.mp h'']
            exact Or.inr (by simp)
        · exact Or.inr (by rw [List.map_cons]; exact List.mem_cons_of_mem _ h')
      · intro id hid
        rcases c5 id hid with h' | h'
        · rcases List.mem_append.mp h' with h'' | h''
          · exact Or.inl h''
          · rw [List.mem_singleton.mp h'']
            exact Or.inr (by simp)
        · exact Or.inr (by rw [List.map_cons]; exact List.mem_cons_of_mem _ h')

theorem countP_id_append_one (log : List (Nat × DeviceLogListenerState))
    (x : Nat × DeviceLogListenerState) (id : Nat) :
    (log ++ [x]).countP (fun p => p.1 == id)
      = log.countP (fun p => p.1 == id) + (if x.1 = id then 1 else 0) := by
  rw [countP_append_one]
  by_cases hcase : x.1 = id
  · simp [hcase]
  · simp [hcase]

/-- Well-formedness of a `State`: every callback has executed at most once; an
executed callback is either guard-tripped or keeps no registration; all ids in
the registry, the guard set and the log were issued by `subscribe`. -/
def StateWF (em : State) : Prop :=
  (∀ id, logCount em id ≤ 1)
  ∧ (∀ id, 1 ≤ logCount em id → id ∈ em.fired ∨ id ∉ entryIds em)
  ∧ (∀ id ∈ entryIds em, id < em.nextId)
  ∧ (∀ id ∈ em.fired, id < em.nextId)
  ∧ (∀ p ∈ em.execLog, p.1 < em.nextId)

theorem stateWF_set (em : State) (st : DeviceLogListenerState) (err : Option Err)
    (h : StateWF em) : StateWF (em.set st err) := by
  obtain ⟨w1, w2, w3, w4, w5⟩ := h
  have hsub : ∀ en ∈ em.entries.filter (fun en => en.1 == st), en ∈ em.entries :=
    fun en hm => (List.mem_filter.mp hm).1
  have h2pre : ∀ en ∈ em.entries.filter (fun en => en.1 == st),
      1 ≤ em.execLog.countP (fun p => p.1 == en.2.1) → en.2.1 ∈ em.fired := by
    intro en hm hc
    rcases w2 en.2.1 hc with hf | hni
    · exact hf
    · exact absurd (List.mem_map.mpr ⟨en, hsub en hm, rfl⟩) hni
  obtain ⟨c1, c2, c3, c4, c5⟩ := emitRun_spec st
    (em.entries.filter (fun en => en.1 == st)) em.fired em.execLog w1 h2pre
  have hids : ∀ id ∈ (em.entries.filter (fun en => en.1 == st)).map
      (fun en => en.2.1), id ∈ entryIds em := by
    intro id hm
    obtain ⟨en, hen, rfl⟩ := List.mem_map.mp hm
    exact List.mem_map.mpr ⟨en, hsub en hen, rfl⟩
  have hsubids : ∀ id ∈ entryIds (em.set st err), id ∈ entryIds em := by
    intro id hm
    obtain ⟨en, hen, rfl⟩ := List.mem_map.mp hm
    exact List.mem_map.mpr ⟨en, (List.mem_filter.mp hen).1, rfl⟩
  refine ⟨fun id => c1 id, ?_, ?_, ?_, ?_⟩
  · intro id hc
    by_cases he : logCount (em.set st err) id = logCount em id
    · rw [he] at hc
      rcases w2 id hc with hf | hni
      · exact Or.inl (c2 id hf)
      · exact Or.inr (fun hm => hni (hsubids id hm))
    · exact Or.inl (c3 id he).2.2.1
  · intro id hm
    exact w3 id (hsubids id hm)
  · intro id hm
    rcases c5 id hm with hf | hf
    · exact w4 id hf
    · exact w3 id (hids id hf)
  · intro p hp
    rcases c4 p hp with hl | hl
    · exact w5 p hl
    · exact w3 p.1 (hids p.1 hl)

theorem stateWF_subscribe (em : State) (states : List DeviceLogListenerState)
    (once : Bool) (h : StateWF em) : StateWF (em.subscribe states once).1 := by
  obtain ⟨w1, w2, w3, w4, w5⟩ := h
  by_cases hcur : em._currentState ∈ states
  · -- immediate fire, no registration kept
    have heq : (em.subscribe states once).1
        = { em with execLog := em.execLog ++ [(em.nextId, em._currentState)],
                    nextId := em.nextId + 1 } := by
      unfold State.subscribe
      rw [if_pos hcur]
    rw [heq]
    have hzero : em.execLog.countP (fun p => p.1 == em.nextId) = 0 := by
      rw [List.countP_eq_zero]
      intro p hp
      simp only [beq_iff_eq]
      have := w5 p hp
      omega
    refine ⟨?_, ?_, ?_, ?_, ?_⟩
    · intro id
      show (em.execLog ++ [(em.nextId, em._currentState)]).countP (fun p => p.1 == id) ≤ 1
      rw [countP_id_append_one]
      have hw : em.execLog.countP (fun p => p.1 == id) ≤ 1 := w1 id
      by_cases hid : em.nextId = id
      · subst hid
        rw [if_pos rfl]
        omega
      · rw [if_neg hid]
        omega
    · intro id hc
      show id ∈ em.fired ∨ id ∉ entryIds em
      replace hc : 1 ≤ (em.execLog ++ [(em.nextId, em._currentState)]).countP
          (fun p => p.1 == id) := hc
      rw [countP_id_append_one] at hc
      by_cases hid : em.nextId = id
      · subst hid
        right
        intro hm
        have := w3 _ hm
        omega
      · rw [if_neg hid] at hc
        have hc' : 1 ≤ logCount em id := hc
        exact w2 id hc'
    · intro id hm
      show id < em.nextId + 1
      have : id ∈ entryIds em := hm
      have := w3 id this
      omega
    · intro id hm
      show id < em.nextId + 1
      have := w4 id hm
      omega
    · intro p hp
      show p.1 < em.nextId + 1
      rcases List.mem_append.mp hp with hl | hl
      · have := w5 p hl
        omega
      · rw [List.mem_singleton.mp hl]
        omega
  · -- registration kept, one guarded entry per listed state
    have heq : (em.subscribe states once).1
        = { em with entries := em.entries ++ states.map (fun st => (st, em.nextId, once)),
                    nextId := em.nextId + 1 } := by
      unfold State.subscribe
      rw [if_neg hcur]
    rw [heq]
    have hnew : ∀ id, id ∈ entryIds { em with
        entries := em.entries ++ states.map (fun st => (st, em.nextId, once)),
        nextId := em.nextId + 1 } → id ∈ entryIds em ∨ id = em.nextId := by
      intro id hm
      obtain ⟨en, hen, rfl⟩ := List.mem_map.mp hm
      rcases List.mem_append.mp hen with hl | hl
      · exact Or.inl (List.mem_map.mpr ⟨en, hl, rfl⟩)
      · obtain ⟨st0, _, rfl⟩ := List.mem_map.mp hl
        exact Or.inr rfl
    refine ⟨fun id => w1 id, ?_, ?_, ?_, ?_⟩
    · intro id hc
      replace hc : 1 ≤ logCount em id := hc
      rcases w2 id hc with hf | hni
      · exact Or.inl hf
      · right
        intro hm
        rcases hnew id hm with hold | hnx
        · exact hni hold
        · replace hc : 1 ≤ em.execLog.countP (fun p => p.1 == id) := hc
          have hex : ∃ p ∈ em.execLog, (p.1 == id) = true := by
            by_contra hcon
            push_neg at hcon
            rw [List.countP_eq_zero.mpr (fun a ha hb =>
              absurd hb (by simpa using hcon a ha))] at hc
            omega
          obtain ⟨p, hp, hpid⟩ := hex
          have h5 := w5 p hp
          rw [beq_iff_eq] at hpid
          omega
    · intro id hm
      show id < em.nextId + 1
      rcases hnew id hm with hold | hnx
      · have := w3 id hold
        omega
      · omega
    · intro id hm
      show id < em.nextId + 1
      have := w4 id hm
      omega
    · intro p hp
      show p.1 < em.nextId + 1
      have := w5 p hp
      omega

theorem stateWF_dispose (em : State) (id0 : Nat) (h : StateWF em) :
    StateWF (em.dispose id0) := by
  obtain ⟨w1, w2, w3, w4, w5⟩ := h
  have hsubids : ∀ id ∈ entryIds (em.dispose id0), id ∈ entryIds em := by
    intro id hm
    obtain ⟨en, hen, rfl⟩ := List.mem_map.mp hm
    exact List.mem_map.mpr ⟨en, (List.mem_filter.mp hen).1, rfl⟩
  refine ⟨w1, ?_, ?_, w4, w5⟩
  · intro id hc
    rcases w2 id hc with hf | hni
    · exact Or.inl hf
    · exact Or.inr (fun hm => hni (hsubids id hm))
  · intro id hm
    exact w3 id (hsubids id hm)

theorem stateWF_applyOp (em : State) (op : EmOp) (h : StateWF em) :
    StateWF (em.applyOp op) := by
  cases op with
  | sub states o => exact stateWF_subscribe em states o h
  | setOp st err => exact stateWF_set em st err h
  | disposeOp id => exact stateWF_dispose em id h

theorem stateWF_runFrom (em : State) (ops : List EmOp) (h : StateWF em) :
    StateWF (State.runFrom em ops) := by
  induction ops generalizing em with
  | nil => exact h
  | cons op rest ih => exact ih _ (stateWF_applyOp em op h)

theorem stateWF_runOps (ops : List EmOp) : StateWF (State.runOps ops) := by
  refine stateWF_runFrom _ _ ⟨?_, ?_, ?_, ?_, ?_⟩ <;> intro x <;> simp [State.init, logCount, entryIds]

/-- A callback that has executed once, whose id is already issued and which
keeps no registration, never executes again. -/
def IdSettled (em : State) (id : Nat) : Prop :=
  StateWF em ∧ logCount em id = 1 ∧ id < em.nextId ∧ id ∉ entryIds em

theorem idSettled_applyOp (em : State) (op : EmOp) (id : Nat)
    (h : IdSettled em id) : IdSettled (em.applyOp op) id := by
  obtain ⟨hwf, hcnt, hlt, hni⟩ := h
  have hwf' := stateWF_applyOp em op hwf
  obtain ⟨w1, w2, w3, w4, w5⟩ := hwf
  cases op with
  | sub states o =>
    by_cases hcur : em._currentState ∈ states
    · have heq : (em.subscribe states o).1
          = { em with execLog := em.execLog ++ [(em.nextId, em._currentState)],
                      nextId := em.nextId + 1 } := by
        unfold State.subscribe
        rw [if_pos hcur]
      refine ⟨hwf', ?_, ?_, ?_⟩
      · show logCount (em.subscribe states o).1 id = 1
        rw [heq]
        show (em.execLog ++ [(em.nextId, em._currentState)]).countP (fun p => p.1 == id) = 1
        rw [countP_id_append_one, if_neg (by omega)]
        exact hcnt
      · show id < (em.subscribe states o).1.nextId
        rw [heq]
        show id < em.nextId + 1
        omega
      · show id ∉ entryIds (em.subscribe states o).1
        rw [heq]
        exact hni
    · have heq : (em.subscribe states o).1
          = { em with entries := em.entries ++ states.map (fun st => (st, em.nextId, o)),
                      nextId := em.nextId + 1 } := by
        unfold State.subscribe
        rw [if_neg hcur]
      refine ⟨hwf', ?_, ?_, ?_⟩
      · show logCount (em.subscribe states o).1 id = 1
        rw [heq]
        exact hcnt
      · show id < (em.subscribe states o).1.nextId
        rw [heq]
        show id < em.nextId + 1
        omega
      · show id ∉ entryIds (em.subscribe states o).1
        rw [heq]
        intro hm
        obtain ⟨en, hen, rfl⟩ := List.mem_map.mp hm
        rcases List.mem_append.mp hen with hl | hl
        · exact hni (List.mem_map.mpr ⟨en, hl, rfl⟩)
        · obtain ⟨st0, _, rfl⟩ := List.mem_map.mp hl
          show False
          have : (st0, em.nextId, o).2.1 = em.nextId := rfl
          omega
  | setOp st err =>
    have hsub : ∀ en ∈ em.entries.filter (fun en => en.1 == st), en ∈ em.entries :=
      fun en hm => (List.mem_filter.mp hm).1
    have h2pre : ∀ en ∈ em.entries.filter (fun en => en.1 == st),
        1 ≤ em.execLog.countP (fun p => p.1 == en.2.1) → en.2.1 ∈ em.fired := by
      intro en hm hc
      rcases w2 en.2.1 hc with hf | hni2
      · exact hf
      · exact absurd (List.mem_map.mpr ⟨en, hsub en hm, rfl⟩) hni2
    obtain ⟨c1, c2, c3, c4, c5⟩ := emitRun_spec st
      (em.entries.filter (fun en => en.1 == st)) em.fired em.execLog w1 h2pre
    refine ⟨hwf', ?_, hlt, ?_⟩
    · show logCount (em.set st err) id = 1
      by_cases he : logCount (em.set st err) id = logCount em id
      · rw [he]; exact hcnt
      · exfalso
        obtain ⟨_, _, _, hmap⟩ := c3 id he
        obtain ⟨en, hen, rfl⟩ := List.mem_map.mp hmap
        exact hni (List.mem_map.mpr ⟨en, hsub en hen, rfl⟩)
    · intro hm
      obtain ⟨en, hen, rfl⟩ := List.mem_map.mp hm
      exact hni (List.mem_map.mpr ⟨en, (List.mem_filter.mp hen).1, rfl⟩)
  | disposeOp id0 =>
    refine ⟨hwf', hcnt, hlt, ?_⟩
    intro hm
    obtain ⟨en, hen, rfl⟩ := List.mem_map.mp hm
    exact hni (List.mem_map.mpr ⟨en, (List.mem_filter.mp hen).1, rfl⟩)

theorem idSettled_runFrom (em : State) (ops : List EmOp) (id : Nat)
    (h : IdSettled em id) : IdSettled (State.runFrom em ops) id := by
  induction ops generalizing em with
  | nil => exact h
  | cons op rest ih => exact ih _ (idSettled_applyOp em op id h)

theorem attach_entry_clears_token (s : Sys) (i : Nat) (inp : ExecIn)
    (hst : s.currentState = .inactive ∨ s.currentState = .zombie ∨ s.currentState = .fatal)
    (ht : s.tasks[i]? = some .sEntry) :
    (execCmd s (.exec i inp)).stopLogListener = none := by
  show (execTask s i inp).stopLogListener = none
  rw [execTask_eq_start s i inp ht]
  unfold startDispatch
  have h1 : ¬ s.currentState = .active := by rcases hst with h | h | h <;> rw [h] <;> decide
  have h2 : ¬ s.currentState = .starting := by rcases hst with h | h | h <;> rw [h] <;> decide
  have h3 : ¬ s.currentState = .stopping := by rcases hst with h | h | h <;> rw [h] <;> decide
  rw [if_neg h1, if_neg h2, if_neg h3]
  unfold attachLoopTop
  split
  · next x heq =>
    rw [setSt_stopLogListener] at heq
    exact Option.noConfusion heq
  · next heq =>
    split
    · next e hc2 =>
      rw [setTask_stopLogListener, setSt_stopLogListener]
    · next hc2 =>
      rw [setTask_stopLogListener, setSt_stopLogListener, setSt_stopLogListener]
    · next b hc2 =>
      rw [setTask_stopLogListener]
      show (setSt { s with stopLogListener := none } .starting none).stopLogListener = none
      rw [setSt_stopLogListener]

/-! ### Claim theorems -/

/-- C1: for every instance and every sequence of interleaved start()/stop()
calls under the cooperative model, the observable state is one of the six
enumerated values and at most one attach and at most one detach is in flight;
moreover a start() dispatched while the state is `starting` does not invoke
`startListener` again — it parks on the one-shot `['active', 'fatal']`
subscription — and its parked re-invocation is released only by a step whose
resulting state is `active` or `fatal`. -/
theorem c1_states_and_single_flight :
    (∀ cmds : List Cmd,
      ((run cmds).currentState = .starting ∨ (run cmds).currentState = .stopping
        ∨ (run cmds).currentState = .active ∨ (run cmds).currentState = .inactive
        ∨ (run cmds).currentState = .fatal ∨ (run cmds).currentState = .zombie)
      ∧ attachInFlight (run cmds) ≤ 1 ∧ detachInFlight (run cmds) ≤ 1)
    ∧ (∀ (s : Sys) (i : Nat) (inp : ExecIn), s.currentState = .starting →
        s.tasks[i]? = some .sEntry →
        (execCmd s (.exec i inp)).attachCalls = s.attachCalls
        ∧ (execCmd s (.exec i inp)).tasks[i]? = some (.parked [.active, .fatal] true))
    ∧ (∀ (s : Sys) (c : Cmd) (i : Nat),
        s.tasks[i]? = some (.parked [.active, .fatal] true) →
        (execCmd s c).tasks[i]? = some (.parked [.active, .fatal] true)
        ∨ (((execCmd s c).currentState = .active ∨ (execCmd s c).currentState = .fatal)
            ∧ (execCmd s c).tasks[i]? = some .sEntry)) := by
  refine ⟨?_, ?_, ?_⟩
  · intro cmds
    refine ⟨?_, attachInFlight_le_one _ (sysInv_run cmds),
      detachInFlight_le_one _ (sysInv_run cmds)⟩
    cases h : (run cmds).currentState <;> simp
  · exact fun s i inp hc ht => start_coalesce_step s i inp hc ht
  · exact fun s c i ht => parked_step s c i ht

/-- Witness for C1 at concrete inputs: a one-command schedule satisfies the
in-flight bounds; a start() dispatched at `starting` parks without a new
`startListener` call; a parked waiter survives an unrelated step. -/
theorem c1_witness :
    (attachInFlight (run [Cmd.spawnStart]) ≤ 1 ∧ detachInFlight (run [Cmd.spawnStart]) ≤ 1)
    ∧ ((execCmd c1StartingSys (.exec 0 inpConn)).attachCalls = c1StartingSys.attachCalls
       ∧ (execCmd c1StartingSys (.exec 0 inpConn)).tasks[0]?
          = some (.parked [.active, .fatal] true))
    ∧ ((execCmd c1ParkedSys .spawnStop).tasks[0]? = some (.parked [.active, .fatal] true)
       ∨ (((execCmd c1ParkedSys .spawnStop).currentState = .active
            ∨ (execCmd c1ParkedSys .spawnStop).currentState = .fatal)
          ∧ (execCmd c1ParkedSys .spawnStop).tasks[0]? = some .sEntry)) :=
  ⟨⟨(c1_states_and_single_flight.1 [Cmd.spawnStart]).2.1,
    (c1_states_and_single_flight.1 [Cmd.spawnStart]).2.2⟩,
   c1_states_and_single_flight.2.1 c1StartingSys 0 inpConn rfl (by decide),
   c1_states_and_single_flight.2.2 c1ParkedSys .spawnStop 0 (by decide)⟩

/-- C2: from a fresh instance with the connectivity predicate always true, if
`startListener` fails exactly `k < RESTART_CNT` times and then succeeds,
start() ends `active` with `restartCnt` restored to `RESTART_CNT`,
`startListener` invoked exactly `k + 1` times, and one 100 ms backoff sleep
after each failed attempt. -/
theorem c2_retry_then_success (k : Nat) (hk : k < 3) :
    (run (c2Cmds k)).currentState = .active
    ∧ (run (c2Cmds k)).restartCnt = RESTART_CNT
    ∧ (run (c2Cmds k)).attachCalls = k + 1
    ∧ (run (c2Cmds k)).sleepLog = List.replicate k RESTART_SLEEP
    ∧ (run (c2Cmds k)).tasks = [.taskDone] := by
  interval_cases k <;> exact (by decide)

/-- Witness for C2 at `k = 2`: three attach invocations, two 100 ms backoff
sleeps, final state `active`, retries back at 3, and start() resolved. -/
theorem c2_witness :
    (run (c2Cmds 2)).currentState = .active
    ∧ (run (c2Cmds 2)).restartCnt = RESTART_CNT
    ∧ (run (c2Cmds 2)).attachCalls = 2 + 1
    ∧ (run (c2Cmds 2)).sleepLog = List.replicate 2 RESTART_SLEEP
    ∧ (run (c2Cmds 2)).tasks = [.taskDone] :=
  c2_retry_then_success 2 (by decide)

/-- C3: with the predicate always true and `startListener` failing
`RESTART_CNT + 1 = 4` consecutive times, start() still resolves (the task ends
`taskDone`, not rejected), the final state is `fatal`, the error getter holds
the last failure, `restartCnt` is 0 and no auto-restart was issued; in
general, any step that enters `fatal` issues one fire-and-forget start() if
and only if `restartCnt` is positive at that moment (and since `fatal` is
only entered with `restartCnt ≤ 0`, no auto-restart ever fires). -/
theorem c3_fatal_exhaustion :
    ((run c3Cmds).currentState = .fatal
     ∧ (run c3Cmds).lastError = some (.external 4)
     ∧ (run c3Cmds).tasks = [.taskDone]
     ∧ (run c3Cmds).attachCalls = 4
     ∧ (run c3Cmds).restartCnt = 0
     ∧ (run c3Cmds).autoRestarts = 0)
    ∧ (∀ (s : Sys) (c : Cmd), (execCmd s c).fatalEntries ≠ s.fatalEntries →
        s.restartCnt ≤ 0
        ∧ ((execCmd s c).autoRestarts = s.autoRestarts + 1 ↔ 0 < s.restartCnt)) :=
  ⟨by decide, fun s c hf => fatal_entry_step s c hf⟩

/-- Witness for C3's general clause at a concrete exhausted instance: the step
enters `fatal` and the auto-restart biconditional holds. -/
theorem c3_witness :
    c3ExhaustedSys.restartCnt ≤ 0
    ∧ ((execCmd c3ExhaustedSys (.exec 0 (inpFail 9))).autoRestarts
        = c3ExhaustedSys.autoRestarts + 1 ↔ 0 < c3ExhaustedSys.restartCnt) :=
  c3_fatal_exhaustion.2 c3ExhaustedSys (.exec 0 (inpFail 9)) (by decide)

/-- C4: from `active` with a teardown token, stop() sets `stopping` and
suspends on the token; if the token's invocation succeeds the instance ends
`inactive`, if it raises the instance ends `zombie` with the error captured;
in both cases the stop() task completes normally (resolves, never rejects). -/
theorem c4_stop_outcomes (s : Sys) (i : Nat) (tok : Nat) (inp1 inp2 : ExecIn)
    (hc : s.currentState = .active) (htok : s.stopLogListener = some tok)
    (ht : s.tasks[i]? = some .tEntry) :
    ((execCmd s (.exec i inp1)).currentState = .stopping
     ∧ (execCmd s (.exec i inp1)).tasks[i]? = some .tTeardownAwait)
    ∧ (∀ u, inp2.teardown = .ok u →
        (execCmd (execCmd s (.exec i inp1)) (.exec i inp2)).currentState = .inactive
        ∧ (execCmd (execCmd s (.exec i inp1)) (.exec i inp2)).tasks[i]? = some .taskDone)
    ∧ (∀ e, inp2.teardown = .error e →
        (execCmd (execCmd s (.exec i inp1)) (.exec i inp2)).currentState = .zombie
        ∧ (execCmd (execCmd s (.exec i inp1)) (.exec i inp2)).lastError = some e
        ∧ (execCmd (execCmd s (.exec i inp1)) (.exec i inp2)).tasks[i]? = some .taskDone) := by
  obtain ⟨h1, h2, h3, h4⟩ := stop_from_active_step s i inp1 tok hc htok ht
  have hres := teardown_resume_step (execCmd s (.exec i inp1)) i inp2 h2
  exact ⟨⟨h1, h2⟩,
    fun u hu => ⟨(hres.1 u hu).1, (hres.1 u hu).2.2.1⟩,
    fun e he => ⟨(hres.2 e he).1, (hres.2 e he).2.1, (hres.2 e he).2.2.1⟩⟩

/-- Witness for C4: a concrete active instance, one run with a succeeding
teardown and one with a throwing teardown. -/
theorem c4_witness :
    ((execCmd (execCmd c4ActiveSys (.exec 0 inpTdOk)) (.exec 0 inpTdOk)).currentState
      = .inactive)
    ∧ ((execCmd (execCmd c4ActiveSys (.exec 0 inpTdOk))
          (.exec 0 (inpTdFail 9))).currentState = .zombie
       ∧ (execCmd (execCmd c4ActiveSys (.exec 0 inpTdOk))
          (.exec 0 (inpTdFail 9))).lastError = some (.external 9)) :=
  ⟨((c4_stop_outcomes c4ActiveSys 0 5 inpTdOk inpTdOk rfl rfl (by decide)).2.1 () rfl).1,
   ⟨((c4_stop_outcomes c4ActiveSys 0 5 inpTdOk (inpTdFail 9) rfl rfl
       (by decide)).2.2 (.external 9) rfl).1,
    ((c4_stop_outcomes c4ActiveSys 0 5 inpTdOk (inpTdFail 9) rfl rfl
       (by decide)).2.2 (.external 9) rfl).2.1⟩⟩

/-- C5 counterexample: when stop() reaches the detach sequence from `active`
with no stored teardown token, the `assertNotNull` throw is caught by the same
`catch` as a teardown failure: stop() completes normally (`taskDone`, not a
rejection) and the instance lands in `zombie` with the assertion error
captured — the programming error does not propagate to stop()'s caller,
contradicting the claim that it aborts the detach sequence loudly. -/
theorem c5_counterexample :
    (execCmd c5NoTokenSys (.exec 0 inpTdOk)).tasks = [.taskDone]
    ∧ (execCmd c5NoTokenSys (.exec 0 inpTdOk)).currentState = .zombie
    ∧ (execCmd c5NoTokenSys (.exec 0 inpTdOk)).lastError = some .assertionFailed := by
  decide

/-- C5 (amended): if stop() reaches the detach sequence from `active` and the
teardown token is absent, the assertion error raised by `assertNotNull` is
caught inside stop(): the detach sequence is aborted without invoking any
teardown, the instance lands in `zombie` with the assertion error captured,
and stop() resolves normally rather than propagating the programming error. -/
theorem c5_missing_token_swallowed (s : Sys) (i : Nat) (inp : ExecIn)
    (hc : s.currentState = .active) (htok : s.stopLogListener = none)
    (ht : s.tasks[i]? = some .tEntry) :
    (execCmd s (.exec i inp)).currentState = .zombie
    ∧ (execCmd s (.exec i inp)).lastError = some .assertionFailed
    ∧ (execCmd s (.exec i inp)).tasks[i]? = some .taskDone
    ∧ (execCmd s (.exec i inp)).teardownCalls = s.teardownCalls :=
  stop_missing_token_step s i inp hc htok ht

/-- Witness for the amended C5 at the concrete no-token instance. -/
theorem c5_witness :
    (execCmd c5NoTokenSys (.exec 0 inpTdOk)).currentState = .zombie
    ∧ (execCmd c5NoTokenSys (.exec 0 inpTdOk)).lastError = some .assertionFailed
    ∧ (execCmd c5NoTokenSys (.exec 0 inpTdOk)).tasks[0]? = some .taskDone
    ∧ (execCmd c5NoTokenSys (.exec 0 inpTdOk)).teardownCalls
        = c5NoTokenSys.teardownCalls :=
  c5_missing_token_swallowed c5NoTokenSys 0 inpTdOk rfl rfl (by decide)

/-- C6 counterexample: a throwing connectivity predicate makes start() reject
(the pending call ends `taskFailed`, i.e. the promise rejects with the
predicate's exception) and leaves the state stuck at `starting` —
contradicting the claim that predicate exceptions never propagate out of
start(). -/
theorem c6_counterexample :
    (run c6ThrowCmds).tasks = [.taskFailed (.external 7)]
    ∧ (run c6ThrowCmds).currentState = .starting := by
  decide

/-- C6 (amended): errors thrown by `startListener` or by the teardown token
are always absorbed into state plus captured error — over any schedule whose
connectivity-predicate calls do not throw, no start()/stop() call ever
rejects; but an exception from the connectivity predicate itself escapes
start() as a rejection, leaving the state at `starting`. -/
theorem c6_error_absorption :
    (∀ cmds : List Cmd, (∀ c ∈ cmds, cmdConnOk c = true) →
      ∀ pc ∈ (run cmds).tasks, ∀ e, pc ≠ PC.taskFailed e)
    ∧ (∀ (s : Sys) (i : Nat) (inp : ExecIn) (e : Err),
        (s.currentState = .inactive ∨ s.currentState = .zombie
          ∨ s.currentState = .fatal) →
        s.tasks[i]? = some .sEntry → inp.conn = .error e →
        (execCmd s (.exec i inp)).tasks[i]? = some (.taskFailed e)
        ∧ (execCmd s (.exec i inp)).currentState = .starting) :=
  ⟨fun cmds hok => noFailed_run cmds hok,
   fun s i inp e hst ht hconn => conn_throw_step s i inp e hst ht hconn⟩

/-- Witness for the amended C6: a concrete failing-then-succeeding schedule
never rejects, and a concrete predicate throw propagates. -/
theorem c6_witness :
    (∀ pc ∈ (run (c2Cmds 1)).tasks, ∀ e, pc ≠ PC.taskFailed e)
    ∧ ((execCmd c6InactiveSys (.exec 0 ⟨.error (.external 3), .ok 0, .ok ()⟩)).tasks[0]?
        = some (.taskFailed (.external 3))
       ∧ (execCmd c6InactiveSys
          (.exec 0 ⟨.error (.external 3), .ok 0, .ok ()⟩)).currentState = .starting) :=
  ⟨c6_error_absorption.1 (c2Cmds 1) (by decide),
   c6_error_absorption.2 c6InactiveSys 0 ⟨.error (.external 3), .ok 0, .ok ()⟩
     (.external 3) (Or.inl rfl) (by decide) rfl⟩

/-- C7 counterexample: after a successful attach (token 7) followed by a
successful stop(), the instance is back in `inactive` but `stopLogListener`
still holds the stale token — stop() does not clear it, contradicting the
claim that the token is present iff attached-and-not-detached. -/
theorem c7_counterexample :
    (run c7Cmds).currentState = .inactive
    ∧ (run c7Cmds).stopLogListener = some 7
    ∧ (run c7Cmds).tasks = [.taskDone, .taskDone] := by
  decide

/-- C7 (amended): in `active` a teardown token is always present, but the
token is cleared only at the beginning of the next attach sequence, not by
stop(): a successful teardown leaves the stale token in place while the state
returns to `inactive`, and a start() dispatched from
`inactive`/`zombie`/`fatal` clears it. -/
theorem c7_token_lifetime :
    (∀ cmds : List Cmd, (run cmds).currentState = .active →
      (run cmds).stopLogListener ≠ none)
    ∧ (∀ (s : Sys) (i : Nat) (inp : ExecIn),
        s.tasks[i]? = some .tTeardownAwait → ∀ u, inp.teardown = .ok u →
        (execCmd s (.exec i inp)).currentState = .inactive
        ∧ (execCmd s (.exec i inp)).stopLogListener = s.stopLogListener)
    ∧ (∀ (s : Sys) (i : Nat) (inp : ExecIn),
        (s.currentState = .inactive ∨ s.currentState = .zombie
          ∨ s.currentState = .fatal) →
        s.tasks[i]? = some .sEntry →
        (execCmd s (.exec i inp)).stopLogListener = none) :=
  ⟨fun cmds hact => (sysInv_run cmds).2.2.2 hact,
   fun s i inp ht u hu =>
     ⟨((teardown_resume_step s i inp ht).1 u hu).1,
      ((teardown_resume_step s i inp ht).1 u hu).2.2.2⟩,
   fun s i inp hst ht => attach_entry_clears_token s i inp hst ht⟩

/-- Witness for the amended C7 at concrete points: an attached run holds a
token while `active`; a successful teardown keeps the stale token; an attach
entry clears it. -/
theorem c7_witness :
    (run c7AttachCmds).stopLogListener ≠ none
    ∧ ((execCmd c7TdSys (.exec 0 inpTdOk)).currentState = .inactive
       ∧ (execCmd c7TdSys (.exec 0 inpTdOk)).stopLogListener = c7TdSys.stopLogListener)
    ∧ (execCmd c7EntrySys (.exec 0 inpConn)).stopLogListener = none :=
  ⟨c7_token_lifetime.1 c7AttachCmds (by decide),
   c7_token_lifetime.2.1 c7TdSys 0 inpTdOk (by decide) () rfl,
   c7_token_lifetime.2.2 c7EntrySys 0 inpConn (Or.inl rfl) (by decide)⟩

/-- C8 counterexample: a one-shot subscription on `['active', 'fatal']` made
from `inactive`; entering `active` removes only the `active` registration —
the `fatal` registration remains in the emitter, contradicting the claim that
the registration is removed from all states of the set as the disposer would. -/
theorem c8_counterexample :
    (State.set (State.init.subscribe [.active, .fatal] true).1 .active none).entries
      = [(.fatal, 0, true)]
    ∧ (State.set (State.init.subscribe [.active, .fatal] true).1 .active none).entries
      ≠ [] := by
  decide

/-- C8 (amended): when one state of a one-shot multi-state subscription is
entered, only that state's registration is removed; the registration on the
other state stays (stale) until that state itself fires or the disposer runs,
and the per-registration guard keeps the callback from executing again when
the stale registration later fires. -/
theorem c8_stale_registration (st1 st2 : DeviceLogListenerState)
    (h12 : st1 ≠ st2) (h1 : st1 ≠ .inactive) (h2 : st2 ≠ .inactive) :
    (State.set (State.init.subscribe [st1, st2] true).1 st1 none).entries
      = [(st2, 0, true)]
    ∧ (State.set (State.init.subscribe [st1, st2] true).1 st1 none).execLog = [(0, st1)]
    ∧ (State.set (State.set (State.init.subscribe [st1, st2] true).1 st1 none)
        st2 none).entries = []
    ∧ (State.set (State.set (State.init.subscribe [st1, st2] true).1 st1 none)
        st2 none).execLog = [(0, st1)]
    ∧ (State.dispose (State.set (State.init.subscribe [st1, st2] true).1 st1 none)
        0).entries = [] := by
  revert h12 h1 h2
  revert st1 st2
  decide

/-- Witness for the amended C8 on the `['active', 'fatal']` pair. -/
theorem c8_witness :
    (State.set (State.init.subscribe [DeviceLogListenerState.active, .fatal] true).1
      .active none).entries = [(.fatal, 0, true)]
    ∧ (State.set (State.init.subscribe [DeviceLogListenerState.active, .fatal] true).1
        .active none).execLog = [(0, .active)]
    ∧ (State.set (State.set (State.init.subscribe
        [DeviceLogListenerState.active, .fatal] true).1 .active none)
        .fatal none).entries = []
    ∧ (State.set (State.set (State.init.subscribe
        [DeviceLogListenerState.active, .fatal] true).1 .active none)
        .fatal none).execLog = [(0, .active)]
    ∧ (State.dispose (State.set (State.init.subscribe
        [DeviceLogListenerState.active, .fatal] true).1 .active none) 0).entries = [] :=
  c8_stale_registration .active .fatal (by decide) (by decide) (by decide)

/-- C9: every subscription's callback executes at most once over any sequence
of operations — the per-registration guard enforces at-most-once even for
multi-state registrations; concretely, a one-shot on `['active', 'fatal']`
fires exactly once whichever of the two states is entered first and does not
fire again when the other is entered later. -/
theorem c9_at_most_once :
    (∀ (ops : List EmOp) (id : Nat), logCount (State.runOps ops) id ≤ 1)
    ∧ (State.runOps [.sub [.active, .fatal] true, .setOp .active none,
        .setOp .fatal (some (.external 1))]).execLog = [(0, .active)]
    ∧ (State.runOps [.sub [.active, .fatal] true, .setOp .fatal (some (.external 1)),
        .setOp .active none]).execLog = [(0, .fatal)] :=
  ⟨fun ops id => (stateWF_runOps ops).1 id, by decide, by decide⟩

/-- C10: subscribing (on or once) while the current state already matches one
of the listed states fires the callback synchronously exactly once before
returning, keeps no registration — so even the persistent on variant never
fires again on later entries to those states — and the returned unsubscribe
function is a no-op. -/
theorem c10_immediate_fire (ops0 : List EmOp) (states : List DeviceLogListenerState)
    (o : Bool) (ops1 : List EmOp) (h : (State.runOps ops0)._currentState ∈ states) :
    ((State.runOps ops0).subscribe states o).1.entries = (State.runOps ops0).entries
    ∧ ((State.runOps ops0).subscribe states o).1.execLog
        = (State.runOps ops0).execLog
          ++ [(((State.runOps ops0).subscribe states o).2,
               (State.runOps ops0)._currentState)]
    ∧ State.dispose ((State.runOps ops0).subscribe states o).1
        (((State.runOps ops0).subscribe states o).2)
      = ((State.runOps ops0).subscribe states o).1
    ∧ logCount (State.runFrom ((State.runOps ops0).subscribe states o).1 ops1)
        (((State.runOps ops0).subscribe states o).2) = 1 := by
  obtain ⟨w1, w2, w3, w4, w5⟩ := stateWF_runOps ops0
  have heq1 : ((State.runOps ops0).subscribe states o).1
      = { State.runOps ops0 with
          execLog := (State.runOps ops0).execLog
            ++ [((State.runOps ops0).nextId, (State.runOps ops0)._currentState)],
          nextId := (State.runOps ops0).nextId + 1 } := by
    unfold State.subscribe
    rw [if_pos h]
  have heq2 : ((State.runOps ops0).subscribe states o).2
      = (State.runOps ops0).nextId := by
    unfold State.subscribe
    rw [if_pos h]
  have hzero : (State.runOps ops0).execLog.countP
      (fun p => p.1 == (State.runOps ops0).nextId) = 0 := by
    rw [List.countP_eq_zero]
    intro p hp
    simp only [beq_iff_eq]
    have := w5 p hp
    omega
  have hcnt1 : logCount ((State.runOps ops0).subscribe states o).1
      (((State.runOps ops0).subscribe states o).2) = 1 := by
    rw [heq1, heq2]
    show ((State.runOps ops0).execLog
      ++ [((State.runOps ops0).nextId, (State.runOps ops0)._currentState)]).countP
      (fun p => p.1 == (State.runOps ops0).nextId) = 1
    rw [countP_id_append_one]
    have hfst : ((State.runOps ops0).nextId, (State.runOps ops0)._currentState).1
        = (State.runOps ops0).nextId := rfl
    rw [if_pos hfst]
    omega
  refine ⟨by rw [heq1], by rw [heq1, heq2], ?_, ?_⟩
  · rw [heq1, heq2]
    unfold State.dispose
    have hfe : ({ State.runOps ops0 with
        execLog := (State.runOps ops0).execLog
          ++ [((State.runOps ops0).nextId, (State.runOps ops0)._currentState)],
        nextId := (State.runOps ops0).nextId + 1 } : State).entries.filter
        (fun en => !(en.2.1 == (State.runOps ops0).nextId))
        = (State.runOps ops0).entries := by
      apply List.filter_eq_self.mpr
      intro en hen
      have hlt := w3 en.2.1 (List.mem_map.mpr ⟨en, hen, rfl⟩)
      simp only [Bool.not_eq_true', beq_eq_false_iff_ne]
      omega
    rw [hfe]
  · have hsettled : IdSettled ((State.runOps ops0).subscribe states o).1
        (((State.runOps ops0).subscribe states o).2) := by
      refine ⟨stateWF_subscribe _ _ _ ⟨w1, w2, w3, w4, w5⟩, hcnt1, ?_, ?_⟩
      · rw [heq1, heq2]
        show (State.runOps ops0).nextId < (State.runOps ops0).nextId + 1
        omega
      · rw [heq1, heq2]
        intro hm
        have := w3 _ hm
        omega
    exact (idSettled_runFrom _ ops1 _ hsettled).2.1

/-- Witness for C10: from a fresh `State` (current state `inactive`), an on
subscription (persistent variant) on `['inactive']` fires immediately, keeps
no registration, its disposer is a no-op, and a later re-entry of `inactive`
does not fire it again. -/
theorem c10_witness :
    ((State.runOps []).subscribe [DeviceLogListenerState.inactive] false).1.entries
      = (State.runOps []).entries
    ∧ ((State.runOps []).subscribe [DeviceLogListenerState.inactive] false).1.execLog
      = (State.runOps []).execLog
        ++ [(((State.runOps []).subscribe [DeviceLogListenerState.inactive] false).2,
             (State.runOps [])._currentState)]
    ∧ State.dispose
        ((State.runOps []).subscribe [DeviceLogListenerState.inactive] false).1
        (((State.runOps []).subscribe [DeviceLogListenerState.inactive] false).2)
      = ((State.runOps []).subscribe [DeviceLogListenerState.inactive] false).1
    ∧ logCount (State.runFrom
        ((State.runOps []).subscribe [DeviceLogListenerState.inactive] false).1
        [.setOp .inactive none])
        (((State.runOps []).subscribe [DeviceLogListenerState.inactive] false).2) = 1 :=
  c10_immediate_fire [] [.inactive] false [.setOp .inactive none] (by decide)
